import Mathlib

/-!
# Go multi-stage demo service: `go-app/main.go`

A shallow embedding of the HTTP demo service of lab 03.  Library calls whose
result the program cannot control (the environment, the clock, the runtime
statistics, the JSON encoder, `ListenAndServe`, `Close`, signal delivery) are
inputs of the definitions; everything the source itself computes is computed
here.
-/

namespace GoApp

/-! ## Values of the Go runtime and standard library -/

/-- Go error values the program can observe: the sentinel `http.ErrServerClosed`
and any other error, carried with the text of its `Error()` method. -/
inductive Error where
  | ErrServerClosed
  | other (msg : String)
  deriving DecidableEq, Repr

/-- Text printed for an error by the `%v` verb. -/
def Error.text : Error → String
  | .ErrServerClosed => "http: Server closed"
  | .other msg => msg

/-- The two signals registered with `signal.Notify`. -/
inductive Signal where
  | SIGINT
  | SIGTERM
  deriving DecidableEq, Repr

/-- The signal number (`syscall.SIGINT` is 2, `syscall.SIGTERM` is 15). -/
def Signal.number : Signal → Nat
  | .SIGINT => 2
  | .SIGTERM => 15

/-- The process environment: the list of `KEY=value` pairs. -/
abbrev Environ := List (String × String)

/-- Go `os.Getenv`: the value of the variable, empty when it is not present. -/
def Getenv (env : Environ) (key : String) : String :=
  (env.lookup key).getD ""

/-- A `time.Duration`: a signed 64-bit count of nanoseconds. -/
abbrev Duration := Int

/-- Go `time.Second`, a `Duration`. -/
def Second : Int := 1000000000

/-- Largest `time.Duration`. -/
def maxDuration : Int := 2 ^ 63 - 1

/-- Smallest `time.Duration`. -/
def minDuration : Int := -(2 ^ 63)

/-- Reduction of an integer to `int64` (two's-complement wrap-around). -/
def wrap64 (x : Int) : Int := (x + 2 ^ 63) % 2 ^ 64 - 2 ^ 63

/-- Membership in the `int64` range. -/
abbrev isInt64 (x : Int) : Prop := -(2 ^ 63) ≤ x ∧ x < 2 ^ 63

/-- A `time.Time` as produced by `time.Now()`: the wall clock reading and the
monotonic clock reading, both in nanoseconds. -/
structure Time where
  wall : Int
  mono : Int
  deriving DecidableEq, Repr

/-- Standard library `time.subMono`: the saturating difference of two
monotonic readings, which is what `time.Since` returns for a start value
taken with `time.Now()`. -/
def subMono (t u : Int) : Int :=
  let d := wrap64 (t - u)
  if d < 0 ∧ t > u then maxDuration
  else if d > 0 ∧ t < u then minDuration
  else d

/-- Go `time.Since(start)` evaluated when the clock reads `now`; a `Duration`. -/
def Since (start now : Time) : Int := subMono now.mono start.mono

/-- Go `Duration.Seconds()`: `float64(d / Second) + float64(d % Second) / 1e9`
with truncating integer division.  The `float64` result is represented by the
exact rational value of that expression. -/
def Seconds (d : Duration) : ℚ :=
  ((Int.tdiv d Second : Int) : ℚ) + ((Int.tmod d Second : Int) : ℚ) / 1000000000

/-- Conversion `uint64(x)` of an unsigned value. -/
def toUint64 (x : Nat) : Nat := x % 2 ^ 64

/-- The fields of `runtime.MemStats` the program reads.  `Alloc`,
`TotalAlloc` and `Sys` are `uint64`, `NumGC` is `uint32`. -/
structure MemStats where
  Alloc : Nat
  TotalAlloc : Nat
  Sys : Nat
  NumGC : Nat
  deriving DecidableEq, Repr

/-- Range conditions of the `runtime.MemStats` field types. -/
abbrev MemStats.wellTyped (m : MemStats) : Prop :=
  m.Alloc < 2 ^ 64 ∧ m.TotalAlloc < 2 ^ 64 ∧ m.Sys < 2 ^ 64 ∧ m.NumGC < 2 ^ 32

/-! ## Data model of `main.go` -/

/-- The `Response` struct (greeting). -/
structure Response where
  Message : String
  Hostname : String
  Version : String
  GoVersion : String
  Timestamp : Time
  deriving DecidableEq, Repr

/-- The `HealthResponse` struct.  `Uptime` is the text of `Duration.String()`. -/
structure HealthResponse where
  Status : String
  Uptime : String
  Timestamp : Time
  deriving DecidableEq, Repr

/-- A value stored in the metrics map (`map[string]interface{}`): a
`float64`, an `int`, or the nested `map[string]uint64`. -/
inductive MetricValue where
  | float (q : ℚ)
  | int (n : Int)
  | uintMap (m : List (String × Nat))
  deriving DecidableEq, Repr

/-- A value handed to the JSON encoder by one of the three handlers. -/
inductive Payload where
  | greeting (r : Response)
  | health (h : HealthResponse)
  | metrics (m : List (String × MetricValue))
  deriving DecidableEq, Repr

/-- The fields of `http.Server` that `main` sets; timeouts in nanoseconds. -/
structure Server where
  Addr : String
  ReadTimeout : Duration
  WriteTimeout : Duration
  deriving DecidableEq, Repr

/-! ## Response writing -/

/-- What a handler has done to its `http.ResponseWriter`: the header map, the
status given to `WriteHeader` (never called by this program) and the bytes
written. -/
structure ResponseWriter where
  header : List (String × String)
  status : Option Nat
  body : String
  deriving DecidableEq, Repr

/-- A fresh response writer. -/
def ResponseWriter.fresh : ResponseWriter := ⟨[], none, ""⟩

/-- Go `w.Header().Set(key, value)`: replaces any value stored under `key`. -/
def ResponseWriter.setHeader (w : ResponseWriter) (key value : String) : ResponseWriter :=
  { w with header := (key, value) :: w.header.filter (fun p => p.1 != key) }

/-- What the client receives. -/
structure HttpResponse where
  status : Nat
  header : List (String × String)
  body : String
  deriving DecidableEq, Repr

/-- Completion of a response by `net/http` once the handler returns: the
status is 200 unless `WriteHeader` chose another one. -/
def ResponseWriter.finish (w : ResponseWriter) : HttpResponse :=
  ⟨w.status.getD 200, w.header, w.body⟩

/-- Result of one `Encode` call: the bytes that reached the writer and the
error returned (nil when none). -/
structure EncodeOutcome where
  written : String
  err : Option Error
  deriving DecidableEq, Repr

/-- The JSON encoder together with the connection it writes to, as a function
of the value to encode. -/
abbrev Encoder := Payload → EncodeOutcome

/-- Go `json.NewEncoder(w).Encode(v)`: the writer afterwards, and the error. -/
def Encode (enc : Encoder) (w : ResponseWriter) (v : Payload) : ResponseWriter × Option Error :=
  ({ w with body := w.body ++ (enc v).written }, (enc v).err)

/-! ## The handlers -/

/-- The record built by `rootHandler`.  `host` is the pair returned by
`os.Hostname()`; its error component is dropped by the source. -/
def rootResponse (env : Environ) (host : String × Option Error) (goVersion : String)
    (now : Time) : Response :=
  { Message := "Hello from Go Multi-Stage Docker!"
    Hostname := host.1
    Version := Getenv env "APP_VERSION"
    GoVersion := goVersion
    Timestamp := now }

/-- Source function `rootHandler`; the request is not read. -/
def rootHandler (enc : Encoder) (w : ResponseWriter) (env : Environ)
    (host : String × Option Error) (goVersion : String) (now : Time) : ResponseWriter :=
  let response := rootResponse env host goVersion now
  let w := w.setHeader "Content-Type" "application/json"
  (Encode enc w (.greeting response)).1

/-- The record built by `healthHandler`.  `fmt` is `Duration.String`, `t` the
clock at the `time.Since` call and `now` the clock at the `time.Now` call. -/
def healthResponse (fmt : Duration → String) (startTime t now : Time) : HealthResponse :=
  let uptime := Since startTime t
  { Status := "healthy"
    Uptime := fmt uptime
    Timestamp := now }

/-- Source function `healthHandler`; the request is not read. -/
def healthHandler (enc : Encoder) (w : ResponseWriter) (fmt : Duration → String)
    (startTime t now : Time) : ResponseWriter :=
  let response := healthResponse fmt startTime t now
  let w := w.setHeader "Content-Type" "application/json"
  (Encode enc w (.health response)).1

/-- The map built by `metricsHandler`, entries in source order.  `m` is the
result of `runtime.ReadMemStats`, `t` the clock at the `time.Since` call. -/
def metricsMap (startTime t : Time) (m : MemStats) (numGoroutine numCPU : Int) :
    List (String × MetricValue) :=
  [ ("uptime_seconds", .float (Seconds (Since startTime t))),
    ("goroutines", .int numGoroutine),
    ("memory", .uintMap
      [ ("alloc", m.Alloc),
        ("total_alloc", m.TotalAlloc),
        ("sys", m.Sys),
        ("num_gc", toUint64 m.NumGC) ]),
    ("cpu_count", .int numCPU) ]

/-- Source function `metricsHandler`; the request is not read. -/
def metricsHandler (enc : Encoder) (w : ResponseWriter) (startTime t : Time) (m : MemStats)
    (numGoroutine numCPU : Int) : ResponseWriter :=
  let metrics := metricsMap startTime t m numGoroutine numCPU
  let w := w.setHeader "Content-Type" "application/json"
  (Encode enc w (.metrics metrics)).1

/-! ## Start-up configuration in `main` -/

/-- The local `port` of `main`: `PORT`, or `"8080"` when that is empty. -/
def port (env : Environ) : String :=
  let p := Getenv env "PORT"
  if p == "" then "8080" else p

/-- The `http.Server` value built by `main`. -/
def newServer (env : Environ) : Server :=
  { Addr := ":" ++ port env
    ReadTimeout := 10 * Second
    WriteTimeout := 10 * Second }

/-! ## The process: `main`, the accept-loop goroutine and their environment

The two threads of control are interleaved one statement at a time.  The
results of blocking library calls and the deliveries of signals are chosen by
the schedule. -/

/-- Observable events of a run, in the order they happen. -/
inductive Event where
  | killed (sig : Signal)
  | notify
  | envRead (key : String)
  | spawn
  | delivered (sig : Signal)
  | dropped (sig : Signal)
  | sigReceived (sig : Signal)
  | log (line : String)
  | bound
  | listenReturned (err : Option Error)
  | serverClose (err : Option Error)
  | served (v : Payload) (r : HttpResponse)
  | mainReturn
  | exit (code : Nat)
  deriving DecidableEq, Repr

/-- Control points of `main`. -/
inductive MainPc where
  | start
  | registered
  | waiting
  | gotSignal
  | closing
  | closed (err : Option Error)
  | stopping
  | finishing
  | returned
  deriving DecidableEq, Repr

/-- Control points of the goroutine started by `main`. -/
inductive GoPc where
  | idle
  | created
  | calling
  | serving
  | returned (err : Option Error)
  | done
  deriving DecidableEq, Repr

/-- The three registered handlers. -/
inductive Handler where
  | root
  | health
  | metrics
  deriving DecidableEq, Repr

/-- What one handler invocation reads from outside the program. -/
structure Call where
  handler : Handler
  host : String × Option Error
  goVersion : String
  t : Time
  now : Time
  mem : MemStats
  numGoroutine : Int
  numCPU : Int
  out : EncodeOutcome
  deriving DecidableEq, Repr

/-- The moves of a schedule. -/
inductive Action where
  | main
  | close (err : Option Error)
  | deliver (sig : Signal)
  | goroutine
  | listen (err : Option Error)
  | serveReturn (err : Option Error)
  | request (c : Call)
  deriving DecidableEq, Repr

/-- State of the process. `sigChan` is the channel of capacity one, `exited`
the exit status once the process has terminated. -/
structure State where
  env : Environ
  startTime : Time
  mpc : MainPc
  gpc : GoPc
  sigChan : Option Signal
  server : Option Server
  exited : Option Nat
  trace : List Event
  deriving DecidableEq, Repr

/-- State at the entry of `main`, after `init` has stored the start instant. -/
def boot (env : Environ) (startTime : Time) : State :=
  { env := env, startTime := startTime, mpc := .start, gpc := .idle, sigChan := none,
    server := none, exited := none, trace := [] }

/-- Appends events to the trace. -/
def State.emit (s : State) (es : List Event) : State :=
  { s with trace := s.trace ++ es }

/-- Condition `err != nil && err != http.ErrServerClosed` of the goroutine. -/
def isFatal (err : Option Error) : Bool :=
  err != none && err != some Error.ErrServerClosed

/-- Text printed by `%v` for an error value that may be nil. -/
def errText : Option Error → String
  | none => "<nil>"
  | some e => e.text

/-- One statement of `main` that needs no outside result. -/
def mainStep (s : State) : Option State :=
  match s.mpc with
  | .start => some { s.emit [.notify] with mpc := .registered }
  | .registered =>
    some { s.emit [.envRead "PORT", .spawn] with
      mpc := .waiting, gpc := .created, server := some (newServer s.env) }
  | .waiting =>
    match s.sigChan with
    | some sig => some { s.emit [.sigReceived sig] with mpc := .gotSignal, sigChan := none }
    | none => none
  | .gotSignal =>
    some { s.emit [.log "Shutdown signal received, gracefully stopping..."] with
      mpc := .closing }
  | .closing => none
  | .closed err =>
    if err != none then
      some { s.emit [.log ("Server close error: " ++ errText err)] with mpc := .stopping }
    else some { s with mpc := .stopping }
  | .stopping => some { s.emit [.log "Server stopped"] with mpc := .finishing }
  | .finishing => some { s.emit [.mainReturn, .exit 0] with mpc := .returned, exited := some 0 }
  | .returned => none

/-- The call `server.Close()` of `main`, returning `err`. -/
def closeStep (s : State) (err : Option Error) : Option State :=
  match s.mpc with
  | .closing => some { s.emit [.serverClose err] with mpc := .closed err }
  | _ => none

/-- Arrival of SIGINT or SIGTERM.  Before `signal.Notify` has run the signal
has its default effect and terminates the process (status 128 plus the signal
number, as shells report a death by signal); afterwards it is a non-blocking
send on `sigChan`, dropped when the channel is full. -/
def deliverStep (s : State) (sig : Signal) : Option State :=
  match s.mpc with
  | .start => some { s.emit [.killed sig] with exited := some (128 + sig.number) }
  | _ =>
    match s.sigChan with
    | none => some { s.emit [.delivered sig] with sigChan := some sig }
    | some _ => some (s.emit [.dropped sig])

/-- One statement of the goroutine that needs no outside result: the
`log.Printf` before `ListenAndServe`, and the test of its result with the
`log.Fatalf` (print, then `os.Exit(1)`). -/
def goroutineStep (s : State) : Option State :=
  match s.gpc with
  | .created =>
    some { s.emit [.log ("Server starting on port " ++ port s.env)] with gpc := .calling }
  | .returned err =>
    if isFatal err then
      some { s.emit [.log ("Server failed to start: " ++ errText err), .exit 1] with
        exited := some 1 }
    else some { s with gpc := .done }
  | _ => none

/-- Outcome of the bind inside `server.ListenAndServe()`: `none` when the
listener is bound and the accept loop runs, an error when the call returns
at once. -/
def listenStep (s : State) (err : Option Error) : Option State :=
  match s.gpc with
  | .calling =>
    match err with
    | none => some { s.emit [.bound] with gpc := .serving }
    | some e => some { s.emit [.listenReturned (some e)] with gpc := .returned (some e) }
  | _ => none

/-- Return of `server.ListenAndServe()` from the accept loop. -/
def serveReturnStep (s : State) (err : Option Error) : Option State :=
  match s.gpc with
  | .serving => some { s.emit [.listenReturned err] with gpc := .returned err }
  | _ => none

/-- One request handled while the accept loop runs. -/
def requestStep (fmt : Duration → String) (s : State) (c : Call) : Option State :=
  match s.gpc with
  | .serving =>
    match c.handler with
    | .root =>
      some (s.emit
        [.envRead "APP_VERSION",
         .served (.greeting (rootResponse s.env c.host c.goVersion c.now))
           (rootHandler (fun _ => c.out) .fresh s.env c.host c.goVersion c.now).finish])
    | .health =>
      some (s.emit
        [.served (.health (healthResponse fmt s.startTime c.t c.now))
           (healthHandler (fun _ => c.out) .fresh fmt s.startTime c.t c.now).finish])
    | .metrics =>
      some (s.emit
        [.served (.metrics (metricsMap s.startTime c.t c.mem c.numGoroutine c.numCPU))
           (metricsHandler (fun _ => c.out) .fresh s.startTime c.t c.mem
             c.numGoroutine c.numCPU).finish])
  | _ => none

/-- One move of the process; nothing moves once the process has exited. -/
def step (fmt : Duration → String) (s : State) (a : Action) : Option State :=
  if s.exited.isSome then none
  else
    match a with
    | .main => mainStep s
    | .close err => closeStep s err
    | .deliver sig => deliverStep s sig
    | .goroutine => goroutineStep s
    | .listen err => listenStep s err
    | .serveReturn err => serveReturnStep s err
    | .request c => requestStep fmt s c

/-- Runs a schedule; `none` when some move is not possible. -/
def run (fmt : Duration → String) (s : State) : List Action → Option State
  | [] => some s
  | a :: rest => (step fmt s a).bind (fun s' => run fmt s' rest)

/-- Marks the lifecycle events: signal receipt, `Close`, return of `main`. -/
def isLifecycle : Event → Bool
  | .sigReceived _ => true
  | .serverClose _ => true
  | .mainReturn => true
  | _ => false

/-- The lifecycle events of a trace, in order. -/
def lifecycle (tr : List Event) : List Event := tr.filter isLifecycle

/-- The line of a log event. -/
def logLine : Event → Option String
  | .log line => some line
  | _ => none

/-- The log lines of a trace, in order. -/
def logLines (tr : List Event) : List String := tr.filterMap logLine

/-- The variable of an environment read. -/
def envKey : Event → Option String
  | .envRead key => some key
  | _ => none

/-- The environment variables read, in order. -/
def envReads (tr : List Event) : List String := tr.filterMap envKey

/-! ## Schedules and sequences used in the statements -/

/-- The complete lifecycle sequence: signal receipt, `Close`, return of `main`. -/
def fullLifecycle (sig : Signal) (err : Option Error) : List Event :=
  [.sigReceived sig, .serverClose err, .mainReturn]

/-- The report printed by `main` for the result of `Close`: one line for an
error, nothing for nil. -/
def closeReport : Option Error → List Event
  | none => []
  | some e => [.log ("Server close error: " ++ e.text)]

/-- A `Duration.String` stand-in for concrete runs without health requests. -/
def noFmt : Duration → String := fun _ => "0s"

/-- A schedule in which the port is taken, a SIGTERM arrives, and the
goroutine's fatal exit overtakes `main` between the receipt and `Close`. -/
def fatalRace : List Action :=
  [.main, .main, .goroutine,
   .listen (some (.other "listen tcp :8080: bind: address already in use")),
   .deliver .SIGTERM, .main, .goroutine]

/-- A schedule that brings the instance up: set-up, start line, successful bind. -/
def startUp : List Action := [.main, .main, .goroutine, .listen none]

/-- A schedule that shuts a serving instance down on SIGINT, `Close`
returning nil and `ListenAndServe` returning `http.ErrServerClosed`. -/
def cleanStop : List Action :=
  [.deliver .SIGINT, .main, .main, .close none, .serveReturn (some .ErrServerClosed),
   .goroutine, .main, .main, .main]

/-- A greeting request with fixed outside values. -/
def demoCall : Call :=
  { handler := .root, host := ("web-1", none), goVersion := "go1.21.0",
    t := ⟨0, 10⟩, now := ⟨0, 10⟩, mem := ⟨0, 0, 0, 0⟩, numGoroutine := 2, numCPU := 1,
    out := ⟨"", none⟩ }

/-- A schedule that brings main to its `Close` call while the goroutine holds
a bind error it has not yet tested: port taken, SIGTERM delivered, received
and logged. -/
def raceToClose : List Action :=
  [.main, .main, .goroutine,
   .listen (some (.other "listen tcp :8080: bind: address already in use")),
   .deliver .SIGTERM, .main, .main]

/-- Whether main has passed the report of the result of `Close`. -/
def MainPc.reported : MainPc → Bool
  | .stopping => true
  | .finishing => true
  | .returned => true
  | _ => false

/-- A schedule that brings a serving instance to its `Close` call on SIGINT. -/
def upToClose : List Action := startUp ++ [.deliver .SIGINT, .main, .main]

/-- The moves after a failing `Close`, with `ListenAndServe` returning and the
goroutine ending between the statements of main. -/
def afterFailedClose : List Action :=
  [.serveReturn (some .ErrServerClosed), .main, .goroutine, .main, .main]

/-! ## Invariants and relations used in the proofs -/

/-- Lifecycle events produced so far, for each control point of main. -/
def LifeP : MainPc → List Event → Prop
  | .start, l => l = []
  | .registered, l => l = []
  | .waiting, l => l = []
  | .gotSignal, l => ∃ sig, l = [.sigReceived sig]
  | .closing, l => ∃ sig, l = [.sigReceived sig]
  | .closed err, l => ∃ sig, l = [.sigReceived sig, .serverClose err]
  | .stopping, l => ∃ sig err, l = [.sigReceived sig, .serverClose err]
  | .finishing, l => ∃ sig err, l = [.sigReceived sig, .serverClose err]
  | .returned, l => ∃ sig err, l = [.sigReceived sig, .serverClose err, .mainReturn]

/-- The lifecycle events of the trace match the control point of main. -/
def LifeInv (s : State) : Prop := LifeP s.mpc (lifecycle s.trace)

/-- Whether main has passed its set-up (server built, goroutine started). -/
def MainPc.configured : MainPc → Bool
  | .start => false
  | .registered => false
  | _ => true

/-- The server value and the reads of PORT match the control point of main. -/
def ConfigInv (env : Environ) (s : State) : Prop :=
  s.env = env ∧
  (s.mpc.configured = false →
    s.server = none ∧ (envReads s.trace).count "PORT" = 0 ∧ s.gpc = .idle) ∧
  (s.mpc.configured = true →
    s.server = some (newServer env) ∧ (envReads s.trace).count "PORT" = 1 ∧ s.gpc ≠ .idle)

/-- The exit status matches the way the process ended: return of main, the
fatal branch of the goroutine, or a signal before `signal.Notify`. -/
def ExitInv (s : State) : Prop :=
  (s.mpc = .returned ↔ s.exited = some 0) ∧
  (∀ c, s.exited = some c → c = 0 ∨
    (c = 1 ∧ ∃ err, isFatal err = true ∧ s.gpc = .returned err ∧
      Event.log ("Server failed to start: " ++ errText err) ∈ s.trace) ∨
    (∃ sig, c = 128 + sig.number ∧ s.mpc = .start ∧ Event.killed sig ∈ s.trace))

/-- Every signal in the channel or received by main was delivered before. -/
def SigInv (s : State) : Prop :=
  (∀ sig, s.sigChan = some sig → Event.delivered sig ∈ s.trace) ∧
  (∀ sig, Event.sigReceived sig ∈ s.trace → Event.delivered sig ∈ s.trace)

/-- Whether main has not yet received a signal. -/
def MainPc.beforeSignal : MainPc → Bool
  | .start => true
  | .registered => true
  | .waiting => true
  | _ => false

/-- Log lines of the goroutine up to each of its control points before its
call returns. -/
def GoLogP : GoPc → String → List String → Prop
  | .idle, _, l => l = []
  | .created, _, l => l = []
  | .calling, p, l => l = ["Server starting on port " ++ p]
  | .serving, p, l => l = ["Server starting on port " ++ p]
  | _, _, _ => True

/-- Log lines while main has not yet received a signal: none before the
goroutine exists, then the goroutine's lines only. -/
def StartLogP : MainPc → GoPc → String → List String → Prop
  | .start, g, _, l => g = .idle ∧ l = []
  | .registered, g, _, l => g = .idle ∧ l = []
  | .waiting, g, p, l => GoLogP g p l
  | _, _, _, _ => True

/-- While main has not received a signal, the log holds the goroutine's lines only. -/
def StartLogInv (s : State) : Prop :=
  StartLogP s.mpc s.gpc (port s.env) (logLines s.trace)

/-- While main has not received a signal, a delivered signal is still in the
channel. -/
def ChanInv (s : State) : Prop :=
  s.mpc.beforeSignal = true → ∀ sig, Event.delivered sig ∈ s.trace → s.sigChan.isSome = true

/-- All invariants of a run started with environment `env`. -/
def Inv (env : Environ) (s : State) : Prop :=
  ConfigInv env s ∧ LifeInv s ∧ ExitInv s ∧ SigInv s ∧ StartLogInv s ∧ ChanInv s

/-- Moves of a shutdown in which `Close` returns no error and
`ListenAndServe` returns nothing but nil or `http.ErrServerClosed`. -/
def Action.benign : Action → Bool
  | .close err => err == none
  | .serveReturn err => !isFatal err
  | _ => true

/-- Log lines of main up to each of its control points when `Close` returns nil. -/
def mainLog : MainPc → List String
  | .start => []
  | .registered => []
  | .waiting => []
  | .gotSignal => []
  | .closing => ["Shutdown signal received, gracefully stopping..."]
  | .closed _ => ["Shutdown signal received, gracefully stopping..."]
  | .stopping => ["Shutdown signal received, gracefully stopping..."]
  | .finishing => ["Shutdown signal received, gracefully stopping...", "Server stopped"]
  | .returned => ["Shutdown signal received, gracefully stopping...", "Server stopped"]

/-- Control points of the goroutine once the listener is bound, the fatal
branch excluded. -/
def GoPc.boundQuiet : GoPc → Bool
  | .serving => true
  | .returned err => !isFatal err
  | .done => true
  | _ => false

/-- Invariant of a clean shutdown that starts with log `l0`. -/
def ShutInv (l0 : List String) (s : State) : Prop :=
  s.gpc.boundQuiet = true ∧ s.mpc.configured = true ∧
  logLines s.trace = l0 ++ mainLog s.mpc ∧
  (∀ err, s.mpc = .closed err → err = none) ∧
  (∀ c, s.exited = some c → c = 0 ∧ s.mpc = .returned)

/-- The other signal. -/
def Signal.swap : Signal → Signal
  | .SIGINT => .SIGTERM
  | .SIGTERM => .SIGINT

/-- An event with the signal it mentions exchanged. -/
def Event.swap : Event → Event
  | .killed sig => .killed sig.swap
  | .delivered sig => .delivered sig.swap
  | .dropped sig => .dropped sig.swap
  | .sigReceived sig => .sigReceived sig.swap
  | e => e

/-- A move with the signal it delivers exchanged. -/
def Action.swap : Action → Action
  | .deliver sig => .deliver sig.swap
  | a => a

/-- An exit status with the two deaths by signal exchanged. -/
def swapStatus (c : Nat) : Nat :=
  if c = 130 then 143 else if c = 143 then 130 else c

/-- A state with every signal it records exchanged. -/
def State.swap (s : State) : State :=
  { s with
    sigChan := s.sigChan.map Signal.swap,
    exited := s.exited.map swapStatus,
    trace := s.trace.map Event.swap }

/-- A served response has status 200 and the JSON content type; other
events are unconstrained. -/
def servedOk : Event → Prop
  | .served _ r => r.status = 200 ∧ r.header = [("Content-Type", "application/json")]
  | _ => True

/-- Every response served so far has status 200 and the JSON content type. -/
def ServedInv (s : State) : Prop := ∀ e ∈ s.trace, servedOk e

/-- The moves that belong to main. -/
def Action.isMain : Action → Bool
  | .main => true
  | .close _ => true
  | _ => false

/-- Number of moves of main in a schedule. -/
def mainMoves (sched : List Action) : Nat := (sched.filter Action.isMain).length

/-- The moves main still has to make from a control point, `err` being the
result of `Close` when that call is still ahead. -/
def mainRest : MainPc → Option Error → List Action
  | .start, err => [.main, .main, .main, .main, .close err, .main, .main, .main]
  | .registered, err => [.main, .main, .main, .close err, .main, .main, .main]
  | .waiting, err => [.main, .main, .close err, .main, .main, .main]
  | .gotSignal, err => [.main, .close err, .main, .main, .main]
  | .closing, err => [.close err, .main, .main, .main]
  | .closed _, _ => [.main, .main, .main]
  | .stopping, _ => [.main, .main]
  | .finishing, _ => [.main]
  | .returned, _ => []

/-- Number of statements main still has to execute. -/
def mainLeft : MainPc → Nat
  | .start => 8
  | .registered => 7
  | .waiting => 6
  | .gotSignal => 5
  | .closing => 4
  | .closed _ => 3
  | .stopping => 2
  | .finishing => 1
  | .returned => 0

/-- The events a move has added to the trace. -/
def emitted (s s' : State) : List Event := s'.trace.drop s.trace.length

/-- The events emitted by the moves of main along a run, in order. -/
def mainOut (fmt : Duration → String) (s : State) : List Action → List Event
  | [] => []
  | a :: rest =>
    match step fmt s a with
    | none => []
    | some s' => (if a.isMain then emitted s s' else []) ++ mainOut fmt s' rest

/-- What main has emitted since `Close` returned `err`, for each control
point after the call. -/
def afterClose (err : Option Error) : MainPc → List Event
  | .stopping => closeReport err
  | .finishing => closeReport err ++ [.log "Server stopped"]
  | .returned => closeReport err ++ [.log "Server stopped", .mainReturn, .exit 0]
  | _ => []

/-- Control points of main after `Close` has returned `err`. -/
def MainPc.pastClose (err : Option Error) : MainPc → Prop
  | .closed e => e = err
  | .stopping => True
  | .finishing => True
  | .returned => True
  | _ => False

/-! ## Invariants of the process -/

set_option linter.unusedTactic false

set_option linter.unreachableTactic false

theorem lifecycle_nil : lifecycle [] = [] := rfl

theorem lifecycle_cons (e : Event) (es : List Event) :
    lifecycle (e :: es) = if isLifecycle e then e :: lifecycle es else lifecycle es := by
  simp [lifecycle, List.filter_cons]

theorem lifecycle_append (a b : List Event) : lifecycle (a ++ b) = lifecycle a ++ lifecycle b := by
  simp [lifecycle]

theorem logLines_nil : logLines [] = [] := rfl

theorem logLines_cons (e : Event) (es : List Event) :
    logLines (e :: es) = (logLine e).toList ++ logLines es := by
  cases h : logLine e <;> simp [logLines, List.filterMap_cons, h]

theorem logLines_append (a b : List Event) : logLines (a ++ b) = logLines a ++ logLines b := by
  simp [logLines]

theorem envReads_nil : envReads [] = [] := rfl

theorem envReads_cons (e : Event) (es : List Event) :
    envReads (e :: es) = (envKey e).toList ++ envReads es := by
  cases h : envKey e <;> simp [envReads, List.filterMap_cons, h]

theorem envReads_append (a b : List Event) : envReads (a ++ b) = envReads a ++ envReads b := by
  simp [envReads]

theorem step_life (fmt : Duration → String) (s s' : State) (a : Action)
    (h : step fmt s a = some s') (hi : LifeInv s) : LifeInv s' := by
  unfold LifeInv at hi ⊢
  obtain ⟨env0, st, mpc, gpc, ch, srv, ex, tr⟩ := s
  unfold step at h
  split at h
  · simp at h
  · cases a with
    | main =>
      cases mpc <;> cases ch <;> simp [mainStep, State.emit] at h
      all_goals (try split at h)
      all_goals (try simp at h)
      all_goals (try subst h)
      all_goals (try simp only [LifeP, lifecycle_append, lifecycle_cons, lifecycle_nil, isLifecycle] at *)
      all_goals (try aesop)
    | close err =>
      cases mpc <;> simp [closeStep, State.emit] at h
      all_goals (try subst h)
      all_goals (try simp only [LifeP, lifecycle_append, lifecycle_cons, lifecycle_nil, isLifecycle] at *)
      all_goals (try aesop)
    | deliver sig =>
      cases mpc <;> cases ch <;> simp [deliverStep, State.emit] at h
      all_goals (try subst h)
      all_goals (try simp only [LifeP, lifecycle_append, lifecycle_cons, lifecycle_nil, isLifecycle] at *)
      all_goals (try aesop)
    | goroutine =>
      cases gpc <;> simp [goroutineStep, State.emit] at h
      all_goals (try split at h)
      all_goals (try simp at h)
      all_goals (try subst h)
      all_goals (try simp only [LifeP, lifecycle_append, lifecycle_cons, lifecycle_nil, isLifecycle] at *)
      all_goals (try aesop)
    | listen err =>
      cases gpc <;> cases err <;> simp [listenStep, State.emit] at h
      all_goals (try subst h)
      all_goals (try simp only [LifeP, lifecycle_append, lifecycle_cons, lifecycle_nil, isLifecycle] at *)
      all_goals (try aesop)
    | serveReturn err =>
      cases gpc <;> simp [serveReturnStep, State.emit] at h
      all_goals (try subst h)
      all_goals (try simp only [LifeP, lifecycle_append, lifecycle_cons, lifecycle_nil, isLifecycle] at *)
      all_goals (try aesop)
    | request c =>
      cases gpc <;> simp [requestStep, State.emit] at h
      all_goals (try split at h)
      all_goals (try simp at h)
      all_goals (try subst h)
      all_goals (try simp only [LifeP, lifecycle_append, lifecycle_cons, lifecycle_nil, isLifecycle] at *)
      all_goals (try aesop)

theorem step_config (fmt : Duration → String) (env : Environ) (s s' : State) (a : Action)
    (h : step fmt s a = some s') (hi : ConfigInv env s) : ConfigInv env s' := by
  unfold ConfigInv at hi ⊢
  obtain ⟨env0, st, mpc, gpc, ch, srv, ex, tr⟩ := s
  unfold step at h
  split at h
  · simp at h
  · cases a with
    | main =>
      cases mpc <;> cases ch <;> simp [mainStep, State.emit] at h
      all_goals (try split at h)
      all_goals (try simp at h)
      all_goals (try subst h)
      all_goals (try simp only [MainPc.configured, envReads_append, envReads_cons, envReads_nil, envKey] at *)
      all_goals (try aesop)
    | close err =>
      cases mpc <;> simp [closeStep, State.emit] at h
      all_goals (try subst h)
      all_goals (try simp only [MainPc.configured, envReads_append, envReads_cons, envReads_nil, envKey] at *)
      all_goals (try aesop)
    | deliver sig =>
      cases mpc <;> cases ch <;> simp [deliverStep, State.emit] at h
      all_goals (try subst h)
      all_goals (try simp only [MainPc.configured, envReads_append, envReads_cons, envReads_nil, envKey] at *)
      all_goals (try aesop)
    | goroutine =>
      cases gpc <;> simp [goroutineStep, State.emit] at h
      all_goals (try split at h)
      all_goals (try simp at h)
      all_goals (try subst h)
      all_goals (try simp only [MainPc.configured, envReads_append, envReads_cons, envReads_nil, envKey] at *)
      all_goals (try aesop)
    | listen err =>
      cases gpc <;> cases err <;> simp [listenStep, State.emit] at h
      all_goals (try subst h)
      all_goals (try simp only [MainPc.configured, envReads_append, envReads_cons, envReads_nil, envKey] at *)
      all_goals (try aesop)
    | serveReturn err =>
      cases gpc <;> simp [serveReturnStep, State.emit] at h
      all_goals (try subst h)
      all_goals (try simp only [MainPc.configured, envReads_append, envReads_cons, envReads_nil, envKey] at *)
      all_goals (try aesop)
    | request c =>
      cases gpc <;> simp [requestStep, State.emit] at h
      all_goals (try split at h)
      all_goals (try simp at h)
      all_goals (try subst h)
      all_goals (try simp only [MainPc.configured, envReads_append, envReads_cons, envReads_nil, envKey] at *)
      all_goals (try aesop)

theorem step_exit (fmt : Duration → String) (s s' : State) (a : Action)
    (h : step fmt s a = some s') (hi : ExitInv s) : ExitInv s' := by
  unfold ExitInv at hi ⊢
  obtain ⟨env0, st, mpc, gpc, ch, srv, ex, tr⟩ := s
  unfold step at h
  split at h
  · simp at h
  · cases a with
    | main =>
      cases mpc <;> cases ch <;> simp [mainStep, State.emit] at h
      all_goals (try split at h)
      all_goals (try simp at h)
      all_goals (try subst h)
      all_goals (try simp only [List.mem_append, Signal.number] at *)
      all_goals (try aesop)
    | close err =>
      cases mpc <;> simp [closeStep, State.emit] at h
      all_goals (try subst h)
      all_goals (try simp only [List.mem_append, Signal.number] at *)
      all_goals (try aesop)
    | deliver sig =>
      cases mpc <;> cases ch <;> simp [deliverStep, State.emit] at h
      all_goals (try subst h)
      all_goals (try simp only [List.mem_append, Signal.number] at *)
      all_goals (try aesop)
    | goroutine =>
      cases gpc <;> simp [goroutineStep, State.emit] at h
      all_goals (try split at h)
      all_goals (try simp at h)
      all_goals (try subst h)
      all_goals (try simp only [List.mem_append, Signal.number] at *)
      all_goals (try aesop)
    | listen err =>
      cases gpc <;> cases err <;> simp [listenStep, State.emit] at h
      all_goals (try subst h)
      all_goals (try simp only [List.mem_append, Signal.number] at *)
      all_goals (try aesop)
    | serveReturn err =>
      cases gpc <;> simp [serveReturnStep, State.emit] at h
      all_goals (try subst h)
      all_goals (try simp only [List.mem_append, Signal.number] at *)
      all_goals (try aesop)
    | request c =>
      cases gpc <;> simp [requestStep, State.emit] at h
      all_goals (try split at h)
      all_goals (try simp at h)
      all_goals (try subst h)
      all_goals (try simp only [List.mem_append, Signal.number] at *)
      all_goals (try aesop)

theorem step_sig (fmt : Duration → String) (s s' : State) (a : Action)
    (h : step fmt s a = some s') (hi : SigInv s) : SigInv s' := by
  unfold SigInv at hi ⊢
  obtain ⟨env0, st, mpc, gpc, ch, srv, ex, tr⟩ := s
  unfold step at h
  split at h
  · simp at h
  · cases a with
    | main =>
      cases mpc <;> cases ch <;> simp [mainStep, State.emit] at h
      all_goals (try split at h)
      all_goals (try simp at h)
      all_goals (try subst h)
      all_goals (try simp only [List.mem_append] at *)
      all_goals (try aesop)
    | close err =>
      cases mpc <;> simp [closeStep, State.emit] at h
      all_goals (try subst h)
      all_goals (try simp only [List.mem_append] at *)
      all_goals (try aesop)
    | deliver sig =>
      cases mpc <;> cases ch <;> simp [deliverStep, State.emit] at h
      all_goals (try subst h)
      all_goals (try simp only [List.mem_append] at *)
      all_goals (try aesop)
    | goroutine =>
      cases gpc <;> simp [goroutineStep, State.emit] at h
      all_goals (try split at h)
      all_goals (try simp at h)
      all_goals (try subst h)
      all_goals (try simp only [List.mem_append] at *)
      all_goals (try aesop)
    | listen err =>
      cases gpc <;> cases err <;> simp [listenStep, State.emit] at h
      all_goals (try subst h)
      all_goals (try simp only [List.mem_append] at *)
      all_goals (try aesop)
    | serveReturn err =>
      cases gpc <;> simp [serveReturnStep, State.emit] at h
      all_goals (try subst h)
      all_goals (try simp only [List.mem_append] at *)
      all_goals (try aesop)
    | request c =>
      cases gpc <;> simp [requestStep, State.emit] at h
      all_goals (try split at h)
      all_goals (try simp at h)
      all_goals (try subst h)
      all_goals (try simp only [List.mem_append] at *)
      all_goals (try aesop)

theorem step_startLog (fmt : Duration → String) (s s' : State) (a : Action)
    (h : step fmt s a = some s') (hi : StartLogInv s) : StartLogInv s' := by
  unfold StartLogInv at hi ⊢
  obtain ⟨env0, st, mpc, gpc, ch, srv, ex, tr⟩ := s
  unfold step at h
  split at h
  · simp at h
  · cases a with
    | main =>
      cases mpc <;> cases ch <;> simp [mainStep, State.emit] at h
      all_goals (try split at h)
      all_goals (try simp at h)
      all_goals (try subst h)
      all_goals (try simp only [StartLogP, GoLogP, logLines_append, logLines_cons, logLines_nil, logLine] at *)
      all_goals (try aesop)
    | close err =>
      cases mpc <;> simp [closeStep, State.emit] at h
      all_goals (try subst h)
      all_goals (try simp only [StartLogP, GoLogP, logLines_append, logLines_cons, logLines_nil, logLine] at *)
      all_goals (try aesop)
    | deliver sig =>
      cases mpc <;> cases ch <;> simp [deliverStep, State.emit] at h
      all_goals (try subst h)
      all_goals (try simp only [StartLogP, GoLogP, logLines_append, logLines_cons, logLines_nil, logLine] at *)
      all_goals (try aesop)
    | goroutine =>
      cases gpc <;> simp [goroutineStep, State.emit] at h
      all_goals (try split at h)
      all_goals (try simp at h)
      all_goals (try subst h)
      all_goals (try simp only [StartLogP, GoLogP, logLines_append, logLines_cons, logLines_nil, logLine] at *)
      all_goals (try aesop)
    | listen err =>
      cases gpc <;> cases err <;> simp [listenStep, State.emit] at h
      all_goals (try subst h)
      all_goals (try simp only [StartLogP, GoLogP, logLines_append, logLines_cons, logLines_nil, logLine] at *)
      all_goals (try aesop)
    | serveReturn err =>
      cases gpc <;> simp [serveReturnStep, State.emit] at h
      all_goals (try subst h)
      all_goals (try simp only [StartLogP, GoLogP, logLines_append, logLines_cons, logLines_nil, logLine] at *)
      all_goals (try aesop)
    | request c =>
      cases gpc <;> simp [requestStep, State.emit] at h
      all_goals (try split at h)
      all_goals (try simp at h)
      all_goals (try subst h)
      all_goals (try simp only [StartLogP, GoLogP, logLines_append, logLines_cons, logLines_nil, logLine] at *)
      all_goals (try aesop)

theorem step_chan (fmt : Duration → String) (s s' : State) (a : Action)
    (h : step fmt s a = some s') (hi : ChanInv s) : ChanInv s' := by
  unfold ChanInv at hi ⊢
  obtain ⟨env0, st, mpc, gpc, ch, srv, ex, tr⟩ := s
  unfold step at h
  split at h
  · simp at h
  · cases a with
    | main =>
      cases mpc <;> cases ch <;> simp [mainStep, State.emit] at h
      all_goals (try split at h)
      all_goals (try simp at h)
      all_goals (try subst h)
      all_goals (try simp only [MainPc.beforeSignal, List.mem_append] at *)
      all_goals (try aesop)
    | close err =>
      cases mpc <;> simp [closeStep, State.emit] at h
      all_goals (try subst h)
      all_goals (try simp only [MainPc.beforeSignal, List.mem_append] at *)
      all_goals (try aesop)
    | deliver sig =>
      cases mpc <;> cases ch <;> simp [deliverStep, State.emit] at h
      all_goals (try subst h)
      all_goals (try simp only [MainPc.beforeSignal, List.mem_append] at *)
      all_goals (try aesop)
    | goroutine =>
      cases gpc <;> simp [goroutineStep, State.emit] at h
      all_goals (try split at h)
      all_goals (try simp at h)
      all_goals (try subst h)
      all_goals (try simp only [MainPc.beforeSignal, List.mem_append] at *)
      all_goals (try aesop)
    | listen err =>
      cases gpc <;> cases err <;> simp [listenStep, State.emit] at h
      all_goals (try subst h)
      all_goals (try simp only [MainPc.beforeSignal, List.mem_append] at *)
      all_goals (try aesop)
    | serveReturn err =>
      cases gpc <;> simp [serveReturnStep, State.emit] at h
      all_goals (try subst h)
      all_goals (try simp only [MainPc.beforeSignal, List.mem_append] at *)
      all_goals (try aesop)
    | request c =>
      cases gpc <;> simp [requestStep, State.emit] at h
      all_goals (try split at h)
      all_goals (try simp at h)
      all_goals (try subst h)
      all_goals (try simp only [MainPc.beforeSignal, List.mem_append] at *)
      all_goals (try aesop)

theorem boot_inv (env : Environ) (startTime : Time) : Inv env (boot env startTime) := by
  simp [Inv, ConfigInv, LifeInv, ExitInv, SigInv, StartLogInv, ChanInv, boot, LifeP,
    lifecycle_nil, MainPc.configured, StartLogP, GoLogP, logLines_nil, envReads_nil]

theorem step_inv (fmt : Duration → String) (env : Environ) (s s' : State) (a : Action)
    (h : step fmt s a = some s') (hi : Inv env s) : Inv env s' :=
  ⟨step_config fmt env s s' a h hi.1, step_life fmt s s' a h hi.2.1,
    step_exit fmt s s' a h hi.2.2.1, step_sig fmt s s' a h hi.2.2.2.1,
    step_startLog fmt s s' a h hi.2.2.2.2.1, step_chan fmt s s' a h hi.2.2.2.2.2⟩

theorem run_inv (fmt : Duration → String) (env : Environ) (sched : List Action) :
    ∀ s s' : State, Inv env s → run fmt s sched = some s' → Inv env s' := by
  induction sched with
  | nil =>
    intro s s' hi h
    simp [run] at h
    subst h
    exact hi
  | cons a rest ih =>
    intro s s' hi h
    simp only [run] at h
    cases hs : step fmt s a with
    | none => simp [hs] at h
    | some s1 =>
      simp [hs] at h
      exact ih s1 s' (step_inv fmt env s s1 a hs hi) h

theorem run_append (fmt : Duration → String) (pre post : List Action) :
    ∀ s : State, run fmt s (pre ++ post) = (run fmt s pre).bind (fun s1 => run fmt s1 post) := by
  induction pre with
  | nil => intro s; simp [run]
  | cons a rest ih =>
    intro s
    simp only [List.cons_append, run]
    cases step fmt s a with
    | none => simp
    | some s1 => simp [ih]

theorem step_shut (fmt : Duration → String) (l0 : List String) (s s' : State) (a : Action)
    (hb : a.benign = true) (h : step fmt s a = some s') (hi : ShutInv l0 s) :
    ShutInv l0 s' := by
  unfold ShutInv at hi ⊢
  obtain ⟨env0, st, mpc, gpc, ch, srv, ex, tr⟩ := s
  unfold step at h
  split at h
  · simp at h
  · cases a with
    | main =>
      cases mpc <;> cases ch <;> simp [mainStep, State.emit] at h
      all_goals (try split at h)
      all_goals (try simp at h)
      all_goals (try subst h)
      all_goals (try simp only [Action.benign, GoPc.boundQuiet, MainPc.configured, mainLog, logLines_append, logLines_cons, logLines_nil, logLine] at *)
      all_goals (try aesop)
    | close err =>
      cases mpc <;> simp [closeStep, State.emit] at h
      all_goals (try subst h)
      all_goals (try simp only [Action.benign, GoPc.boundQuiet, MainPc.configured, mainLog, logLines_append, logLines_cons, logLines_nil, logLine] at *)
      all_goals (try aesop)
    | deliver sig =>
      cases mpc <;> cases ch <;> simp [deliverStep, State.emit] at h
      all_goals (try subst h)
      all_goals (try simp only [Action.benign, GoPc.boundQuiet, MainPc.configured, mainLog, logLines_append, logLines_cons, logLines_nil, logLine] at *)
      all_goals (try aesop)
    | goroutine =>
      cases gpc <;> simp [goroutineStep, State.emit] at h
      all_goals (try split at h)
      all_goals (try simp at h)
      all_goals (try subst h)
      all_goals (try simp only [Action.benign, GoPc.boundQuiet, MainPc.configured, mainLog, logLines_append, logLines_cons, logLines_nil, logLine] at *)
      all_goals (try aesop)
    | listen err =>
      cases gpc <;> cases err <;> simp [listenStep, State.emit] at h
      all_goals (try subst h)
      all_goals (try simp only [Action.benign, GoPc.boundQuiet, MainPc.configured, mainLog, logLines_append, logLines_cons, logLines_nil, logLine] at *)
      all_goals (try aesop)
    | serveReturn err =>
      cases gpc <;> simp [serveReturnStep, State.emit] at h
      all_goals (try subst h)
      all_goals (try simp only [Action.benign, GoPc.boundQuiet, MainPc.configured, mainLog, logLines_append, logLines_cons, logLines_nil, logLine] at *)
      all_goals (try aesop)
    | request c =>
      cases gpc <;> simp [requestStep, State.emit] at h
      all_goals (try split at h)
      all_goals (try simp at h)
      all_goals (try subst h)
      all_goals (try simp only [Action.benign, GoPc.boundQuiet, MainPc.configured, mainLog, logLines_append, logLines_cons, logLines_nil, logLine] at *)
      all_goals (try aesop)

theorem run_shut (fmt : Duration → String) (l0 : List String) (sched : List Action) :
    ∀ s s' : State, sched.all Action.benign = true → ShutInv l0 s →
      run fmt s sched = some s' → ShutInv l0 s' := by
  induction sched with
  | nil =>
    intro s s' _ hi h
    simp [run] at h
    subst h
    exact hi
  | cons a rest ih =>
    intro s s' hb hi h
    simp only [List.all_cons, Bool.and_eq_true] at hb
    simp only [run] at h
    cases hs : step fmt s a with
    | none => simp [hs] at h
    | some s1 =>
      simp [hs] at h
      exact ih s1 s' hb.2 (step_shut fmt l0 s s1 a hb.1 hs hi) h

theorem step_swap (fmt : Duration → String) (s : State) (a : Action) :
    step fmt s.swap a.swap = (step fmt s a).map State.swap := by
  obtain ⟨env0, st, mpc, gpc, ch, srv, ex, tr⟩ := s
  cases ex with
  | some c => simp [step, State.swap]
  | none =>
    cases a with
    | main =>
      cases mpc <;> cases ch <;>
        simp [step, State.swap, Action.swap, mainStep, State.emit, Event.swap, swapStatus]
      all_goals (try split)
      all_goals (try simp [State.swap, Event.swap, swapStatus])
    | close err =>
      cases mpc <;> simp [step, State.swap, Action.swap, closeStep, State.emit, Event.swap, swapStatus]
    | deliver sig =>
      cases mpc <;> cases ch <;>
        simp [step, State.swap, Action.swap, deliverStep, State.emit, Event.swap, swapStatus]
      all_goals (cases sig <;> simp [Signal.swap, Signal.number])
    | goroutine =>
      cases gpc <;> simp [step, State.swap, Action.swap, goroutineStep, State.emit, Event.swap, swapStatus]
      all_goals (try split)
      all_goals (try simp [State.swap, Event.swap, swapStatus])
    | listen err =>
      cases gpc <;> cases err <;>
        simp [step, State.swap, Action.swap, listenStep, State.emit, Event.swap, swapStatus]
    | serveReturn err =>
      cases gpc <;> simp [step, State.swap, Action.swap, serveReturnStep, State.emit, Event.swap, swapStatus]
    | request c =>
      cases gpc <;> simp [step, State.swap, Action.swap, requestStep, State.emit, Event.swap, swapStatus]
      all_goals (try split)
      all_goals (try simp [State.swap, Event.swap, swapStatus])

theorem run_swap (fmt : Duration → String) (sched : List Action) :
    ∀ s : State, run fmt s.swap (sched.map Action.swap) = (run fmt s sched).map State.swap := by
  induction sched with
  | nil => intro s; simp [run]
  | cons a rest ih =>
    intro s
    simp only [List.map_cons, run, step_swap]
    cases step fmt s a with
    | none => simp
    | some s1 => simp [ih]

theorem logLines_swap (tr : List Event) : logLines (tr.map Event.swap) = logLines tr := by
  induction tr with
  | nil => rfl
  | cons e rest ih =>
    simp only [List.map_cons, logLines_cons, ih]
    cases e <;> rfl

theorem step_served (fmt : Duration → String) (s s' : State) (a : Action)
    (h : step fmt s a = some s') (hi : ServedInv s) : ServedInv s' := by
  unfold ServedInv at hi ⊢
  obtain ⟨env0, st, mpc, gpc, ch, srv, ex, tr⟩ := s
  unfold step at h
  split at h
  · simp at h
  · cases a with
    | main =>
      cases mpc <;> cases ch <;> simp [mainStep, State.emit] at h
      all_goals (try split at h)
      all_goals (try simp at h)
      all_goals (try subst h)
      all_goals (try simp only [List.forall_mem_append, List.forall_mem_cons, servedOk, rootHandler, healthHandler, metricsHandler, Encode, ResponseWriter.setHeader, ResponseWriter.fresh, ResponseWriter.finish] at *)
      all_goals (try aesop)
    | close err =>
      cases mpc <;> simp [closeStep, State.emit] at h
      all_goals (try subst h)
      all_goals (try simp only [List.forall_mem_append, List.forall_mem_cons, servedOk, rootHandler, healthHandler, metricsHandler, Encode, ResponseWriter.setHeader, ResponseWriter.fresh, ResponseWriter.finish] at *)
      all_goals (try aesop)
    | deliver sig =>
      cases mpc <;> cases ch <;> simp [deliverStep, State.emit] at h
      all_goals (try subst h)
      all_goals (try simp only [List.forall_mem_append, List.forall_mem_cons, servedOk, rootHandler, healthHandler, metricsHandler, Encode, ResponseWriter.setHeader, ResponseWriter.fresh, ResponseWriter.finish] at *)
      all_goals (try aesop)
    | goroutine =>
      cases gpc <;> simp [goroutineStep, State.emit] at h
      all_goals (try split at h)
      all_goals (try simp at h)
      all_goals (try subst h)
      all_goals (try simp only [List.forall_mem_append, List.forall_mem_cons, servedOk, rootHandler, healthHandler, metricsHandler, Encode, ResponseWriter.setHeader, ResponseWriter.fresh, ResponseWriter.finish] at *)
      all_goals (try aesop)
    | listen err =>
      cases gpc <;> cases err <;> simp [listenStep, State.emit] at h
      all_goals (try subst h)
      all_goals (try simp only [List.forall_mem_append, List.forall_mem_cons, servedOk, rootHandler, healthHandler, metricsHandler, Encode, ResponseWriter.setHeader, ResponseWriter.fresh, ResponseWriter.finish] at *)
      all_goals (try aesop)
    | serveReturn err =>
      cases gpc <;> simp [serveReturnStep, State.emit] at h
      all_goals (try subst h)
      all_goals (try simp only [List.forall_mem_append, List.forall_mem_cons, servedOk, rootHandler, healthHandler, metricsHandler, Encode, ResponseWriter.setHeader, ResponseWriter.fresh, ResponseWriter.finish] at *)
      all_goals (try aesop)
    | request c =>
      cases gpc <;> simp [requestStep, State.emit] at h
      all_goals (try split at h)
      all_goals (try simp at h)
      all_goals (try subst h)
      all_goals (try simp only [List.forall_mem_append, List.forall_mem_cons, servedOk, rootHandler, healthHandler, metricsHandler, Encode, ResponseWriter.setHeader, ResponseWriter.fresh, ResponseWriter.finish] at *)
      all_goals (try aesop)

theorem run_served (fmt : Duration → String) (sched : List Action) :
    ∀ s s' : State, ServedInv s → run fmt s sched = some s' → ServedInv s' := by
  induction sched with
  | nil =>
    intro s s' hi h
    simp [run] at h
    subst h
    exact hi
  | cons a rest ih =>
    intro s s' hi h
    simp only [run] at h
    cases hs : step fmt s a with
    | none => simp [hs] at h
    | some s1 =>
      simp [hs] at h
      exact ih s1 s' (step_served fmt s s1 a hs hi) h

theorem step_mainLeft (fmt : Duration → String) (s s' : State) (a : Action)
    (h : step fmt s a = some s') :
    mainLeft s'.mpc + (if a.isMain then 1 else 0) = mainLeft s.mpc := by
  obtain ⟨env0, st, mpc, gpc, ch, srv, ex, tr⟩ := s
  unfold step at h
  split at h
  · simp at h
  · cases a with
    | main =>
      cases mpc <;> cases ch <;> simp [mainStep, State.emit] at h
      all_goals (try split at h)
      all_goals (try simp at h)
      all_goals (try subst h)
      all_goals (try simp only [mainLeft, Action.isMain] at *)
      all_goals (try aesop)
    | close err =>
      cases mpc <;> simp [closeStep, State.emit] at h
      all_goals (try subst h)
      all_goals (try simp only [mainLeft, Action.isMain] at *)
      all_goals (try aesop)
    | deliver sig =>
      cases mpc <;> cases ch <;> simp [deliverStep, State.emit] at h
      all_goals (try subst h)
      all_goals (try simp only [mainLeft, Action.isMain] at *)
      all_goals (try aesop)
    | goroutine =>
      cases gpc <;> simp [goroutineStep, State.emit] at h
      all_goals (try split at h)
      all_goals (try simp at h)
      all_goals (try subst h)
      all_goals (try simp only [mainLeft, Action.isMain] at *)
      all_goals (try aesop)
    | listen err =>
      cases gpc <;> cases err <;> simp [listenStep, State.emit] at h
      all_goals (try subst h)
      all_goals (try simp only [mainLeft, Action.isMain] at *)
      all_goals (try aesop)
    | serveReturn err =>
      cases gpc <;> simp [serveReturnStep, State.emit] at h
      all_goals (try subst h)
      all_goals (try simp only [mainLeft, Action.isMain] at *)
      all_goals (try aesop)
    | request c =>
      cases gpc <;> simp [requestStep, State.emit] at h
      all_goals (try split at h)
      all_goals (try simp at h)
      all_goals (try subst h)
      all_goals (try simp only [mainLeft, Action.isMain] at *)
      all_goals (try aesop)

theorem run_mainLeft (fmt : Duration → String) (sched : List Action) :
    ∀ s s' : State, run fmt s sched = some s' →
      mainLeft s'.mpc + mainMoves sched = mainLeft s.mpc := by
  induction sched with
  | nil =>
    intro s s' h
    simp [run] at h
    subst h
    simp [mainMoves]
  | cons a rest ih =>
    intro s s' h
    simp only [run] at h
    cases hs : step fmt s a with
    | none => simp [hs] at h
    | some s1 =>
      simp [hs] at h
      have h1 := step_mainLeft fmt s s1 a hs
      have h2 := ih s1 s' h
      cases ha : a.isMain <;> simp [mainMoves, List.filter_cons, ha] at h1 h2 ⊢ <;> omega

theorem step_grows (fmt : Duration → String) (s s' : State) (a : Action)
    (h : step fmt s a = some s') : s'.trace = s.trace ++ emitted s s' := by
  unfold emitted
  obtain ⟨env0, st, mpc, gpc, ch, srv, ex, tr⟩ := s
  unfold step at h
  split at h
  · simp at h
  · cases a with
    | main =>
      cases mpc <;> cases ch <;> simp [mainStep, State.emit] at h
      all_goals (try split at h)
      all_goals (try simp at h)
      all_goals (try subst h)
      all_goals (try simp only [List.drop_left, List.drop_length, List.append_nil] at *)
      all_goals (try aesop)
    | close err =>
      cases mpc <;> simp [closeStep, State.emit] at h
      all_goals (try subst h)
      all_goals (try simp only [List.drop_left, List.drop_length, List.append_nil] at *)
      all_goals (try aesop)
    | deliver sig =>
      cases mpc <;> cases ch <;> simp [deliverStep, State.emit] at h
      all_goals (try subst h)
      all_goals (try simp only [List.drop_left, List.drop_length, List.append_nil] at *)
      all_goals (try aesop)
    | goroutine =>
      cases gpc <;> simp [goroutineStep, State.emit] at h
      all_goals (try split at h)
      all_goals (try simp at h)
      all_goals (try subst h)
      all_goals (try simp only [List.drop_left, List.drop_length, List.append_nil] at *)
      all_goals (try aesop)
    | listen err =>
      cases gpc <;> cases err <;> simp [listenStep, State.emit] at h
      all_goals (try subst h)
      all_goals (try simp only [List.drop_left, List.drop_length, List.append_nil] at *)
      all_goals (try aesop)
    | serveReturn err =>
      cases gpc <;> simp [serveReturnStep, State.emit] at h
      all_goals (try subst h)
      all_goals (try simp only [List.drop_left, List.drop_length, List.append_nil] at *)
      all_goals (try aesop)
    | request c =>
      cases gpc <;> simp [requestStep, State.emit] at h
      all_goals (try split at h)
      all_goals (try simp at h)
      all_goals (try subst h)
      all_goals (try simp only [List.drop_left, List.drop_length, List.append_nil] at *)
      all_goals (try aesop)

theorem step_afterClose (fmt : Duration → String) (err : Option Error) (s s' : State)
    (a : Action) (h : step fmt s a = some s') (hi : s.mpc.pastClose err) :
    s'.mpc.pastClose err ∧
      afterClose err s.mpc ++ (if a.isMain then emitted s s' else []) =
        afterClose err s'.mpc := by
  unfold emitted
  obtain ⟨env0, st, mpc, gpc, ch, srv, ex, tr⟩ := s
  unfold step at h
  split at h
  · simp at h
  · cases a with
    | main =>
      cases mpc <;> cases ch <;> simp [mainStep, State.emit] at h
      all_goals (try split at h)
      all_goals (try simp at h)
      all_goals (try subst h)
      all_goals (try simp only [MainPc.pastClose, afterClose, Action.isMain, closeReport, errText, List.drop_left, List.drop_length, List.append_nil] at *)
      all_goals (try aesop)
    | close err =>
      cases mpc <;> simp [closeStep, State.emit] at h
      all_goals (try subst h)
      all_goals (try simp only [MainPc.pastClose, afterClose, Action.isMain, closeReport, errText, List.drop_left, List.drop_length, List.append_nil] at *)
      all_goals (try aesop)
    | deliver sig =>
      cases mpc <;> cases ch <;> simp [deliverStep, State.emit] at h
      all_goals (try subst h)
      all_goals (try simp only [MainPc.pastClose, afterClose, Action.isMain, closeReport, errText, List.drop_left, List.drop_length, List.append_nil] at *)
      all_goals (try aesop)
    | goroutine =>
      cases gpc <;> simp [goroutineStep, State.emit] at h
      all_goals (try split at h)
      all_goals (try simp at h)
      all_goals (try subst h)
      all_goals (try simp only [MainPc.pastClose, afterClose, Action.isMain, closeReport, errText, List.drop_left, List.drop_length, List.append_nil] at *)
      all_goals (try aesop)
    | listen err =>
      cases gpc <;> cases err <;> simp [listenStep, State.emit] at h
      all_goals (try subst h)
      all_goals (try simp only [MainPc.pastClose, afterClose, Action.isMain, closeReport, errText, List.drop_left, List.drop_length, List.append_nil] at *)
      all_goals (try aesop)
    | serveReturn err =>
      cases gpc <;> simp [serveReturnStep, State.emit] at h
      all_goals (try subst h)
      all_goals (try simp only [MainPc.pastClose, afterClose, Action.isMain, closeReport, errText, List.drop_left, List.drop_length, List.append_nil] at *)
      all_goals (try aesop)
    | request c =>
      cases gpc <;> simp [requestStep, State.emit] at h
      all_goals (try split at h)
      all_goals (try simp at h)
      all_goals (try subst h)
      all_goals (try simp only [MainPc.pastClose, afterClose, Action.isMain, closeReport, errText, List.drop_left, List.drop_length, List.append_nil] at *)
      all_goals (try aesop)

theorem run_afterClose (fmt : Duration → String) (err : Option Error) (sched : List Action) :
    ∀ s s' : State, s.mpc.pastClose err → run fmt s sched = some s' →
      s'.mpc.pastClose err ∧
        afterClose err s.mpc ++ mainOut fmt s sched = afterClose err s'.mpc := by
  induction sched with
  | nil =>
    intro s s' hi h
    simp [run] at h
    subst h
    exact ⟨hi, by simp [mainOut]⟩
  | cons a rest ih =>
    intro s s' hi h
    simp only [run] at h
    cases hs : step fmt s a with
    | none => simp [hs] at h
    | some s1 =>
      simp [hs] at h
      obtain ⟨h1, h2⟩ := step_afterClose fmt err s s1 a hs hi
      obtain ⟨h3, h4⟩ := ih s1 s' h1 h
      refine ⟨h3, ?_⟩
      simp only [mainOut, hs]
      rw [← List.append_assoc, h2, h4]

theorem run_grows (fmt : Duration → String) (sched : List Action) :
    ∀ s s' : State, run fmt s sched = some s' →
      ∃ tail, s'.trace = s.trace ++ tail ∧ List.Sublist (mainOut fmt s sched) tail := by
  induction sched with
  | nil =>
    intro s s' h
    simp [run] at h
    subst h
    exact ⟨[], by simp, by simp [mainOut]⟩
  | cons a rest ih =>
    intro s s' h
    simp only [run] at h
    cases hs : step fmt s a with
    | none => simp [hs] at h
    | some s1 =>
      simp [hs] at h
      obtain ⟨tail, ht, hsub⟩ := ih s1 s' h
      refine ⟨emitted s s1 ++ tail, ?_, ?_⟩
      · rw [ht, step_grows fmt s s1 a hs, List.append_assoc]
      · simp only [mainOut, hs]
        cases a.isMain
        · exact List.Sublist.append (List.nil_sublist _) hsub
        · exact List.Sublist.append (List.Sublist.refl _) hsub

theorem main_enabled (fmt : Duration → String) (s : State) (err : Option Error)
    (hlive : s.exited = none) (hret : s.mpc ≠ .returned)
    (hchan : s.mpc = .waiting → s.sigChan.isSome = true) :
    ∃ s', step fmt s .main = some s' ∨ step fmt s (.close err) = some s' := by
  obtain ⟨env0, st, mpc, gpc, ch, srv, ex, tr⟩ := s
  simp only at hlive hret hchan
  subst hlive
  cases mpc <;> cases ch <;> simp [step, mainStep, closeStep] at hchan hret ⊢
  all_goals (split <;> simp)

theorem main_step_rest (fmt : Duration → String) (s : State) (err : Option Error)
    (hlive : s.exited = none) (hret : s.mpc ≠ .returned)
    (hchan : s.mpc.beforeSignal = true → s.sigChan.isSome = true) :
    ∃ a s1, step fmt s a = some s1 ∧ mainRest s.mpc err = a :: mainRest s1.mpc err ∧
      (s1.mpc = .returned → s1.exited = some 0) ∧
      (s1.mpc ≠ .returned → s1.exited = none ∧
        (s1.mpc.beforeSignal = true → s1.sigChan.isSome = true)) ∧
      mainLeft s1.mpc + 1 = mainLeft s.mpc := by
  obtain ⟨env0, st, mpc, gpc, ch, srv, ex, tr⟩ := s
  simp only at hlive hchan hret
  subst hlive
  cases mpc with
  | start =>
    exact ⟨.main, _, rfl, rfl, by simp [State.emit], by simpa [MainPc.beforeSignal, State.emit] using hchan, rfl⟩
  | registered =>
    exact ⟨.main, _, rfl, rfl, by simp [State.emit], by simpa [MainPc.beforeSignal, State.emit] using hchan, rfl⟩
  | waiting =>
    cases ch with
    | none => simp [MainPc.beforeSignal] at hchan
    | some sig => exact ⟨.main, _, rfl, rfl, by simp [State.emit], by simp [MainPc.beforeSignal, State.emit], rfl⟩
  | gotSignal => exact ⟨.main, _, rfl, rfl, by simp [State.emit], by simp [MainPc.beforeSignal, State.emit], rfl⟩
  | closing => exact ⟨.close err, _, rfl, rfl, by simp [State.emit], by simp [MainPc.beforeSignal, State.emit], rfl⟩
  | closed e =>
    cases e with
    | none => exact ⟨.main, _, rfl, rfl, by simp [State.emit], by simp [MainPc.beforeSignal, State.emit], rfl⟩
    | some e1 => exact ⟨.main, _, rfl, rfl, by simp [State.emit], by simp [MainPc.beforeSignal, State.emit], rfl⟩
  | stopping => exact ⟨.main, _, rfl, rfl, by simp [State.emit], by simp [MainPc.beforeSignal, State.emit], rfl⟩
  | finishing => exact ⟨.main, _, rfl, rfl, by simp [State.emit], by simp, rfl⟩
  | returned => exact absurd rfl hret

theorem run_mainRest_aux (fmt : Duration → String) (err : Option Error) (n : Nat) :
    ∀ s : State, mainLeft s.mpc = n → s.exited = none → s.mpc ≠ .returned →
      (s.mpc.beforeSignal = true → s.sigChan.isSome = true) →
      ∃ s', run fmt s (mainRest s.mpc err) = some s' ∧ s'.exited = some 0 ∧
        s'.mpc = .returned := by
  induction n with
  | zero =>
    intro s hn _ hret _
    cases hs : s.mpc <;> rw [hs] at hn <;> simp [mainLeft] at hn
    exact absurd hs hret
  | succ k ih =>
    intro s hn hlive hret hchan
    obtain ⟨a, s1, hstep, hrest, h0, h1, hleft⟩ := main_step_rest fmt s err hlive hret hchan
    rw [hrest]
    simp only [run, hstep, Option.bind_some]
    by_cases hr : s1.mpc = .returned
    · refine ⟨s1, ?_, h0 hr, hr⟩
      rw [hr]
      rfl
    · exact ih s1 (by omega) (h1 hr).1 hr (h1 hr).2

theorem run_mainRest (fmt : Duration → String) (s : State) (err : Option Error)
    (hlive : s.exited = none) (hret : s.mpc ≠ .returned)
    (hchan : s.mpc.beforeSignal = true → s.sigChan.isSome = true) :
    ∃ s', run fmt s (mainRest s.mpc err) = some s' ∧ s'.exited = some 0 ∧
      s'.mpc = .returned :=
  run_mainRest_aux fmt err (mainLeft s.mpc) s rfl hlive hret hchan

theorem mainRest_benign (pc : MainPc) : (mainRest pc none).all Action.benign = true := by
  cases pc <;> rfl

theorem mainRest_moves (pc : MainPc) (err : Option Error) :
    mainMoves (mainRest pc err) = mainLeft pc := by
  cases pc <;> rfl

theorem deliver_enabled (fmt : Duration → String) (s : State) (sig : Signal)
    (hlive : s.exited = none) (hstart : s.mpc ≠ .start) :
    ∃ s', step fmt s (.deliver sig) = some s' ∧ s'.exited = none ∧ s'.mpc = s.mpc ∧
      s'.sigChan.isSome = true := by
  obtain ⟨env0, st, mpc, gpc, ch, srv, ex, tr⟩ := s
  simp only at hlive hstart
  subst hlive
  cases mpc <;> cases ch <;> simp [step, deliverStep, State.emit] at hstart ⊢

theorem close_step (fmt : Duration → String) (s : State) (err : Option Error)
    (hlive : s.exited = none) (hpc : s.mpc = .closing) :
    ∃ s', step fmt s (.close err) = some s' ∧ s'.mpc = .closed err ∧ s'.exited = none ∧
      emitted s s' = [.serverClose err] := by
  obtain ⟨env0, st, mpc, gpc, ch, srv, ex, tr⟩ := s
  simp only at hlive hpc
  subst hlive hpc
  simp [step, closeStep, State.emit, emitted]

theorem mainLeft_zero (pc : MainPc) (h : mainLeft pc = 0) : pc = .returned := by
  cases pc <;> simp [mainLeft] at h ⊢

/-! ## Shared facts about the clock -/

theorem subMono_eq (t u : Int) (ht : isInt64 t) (hu : isInt64 u) (h : u ≤ t) :
    (subMono t u : Int) = if t - u < 2 ^ 63 then t - u else 2 ^ 63 - 1 := by
  unfold isInt64 at ht hu
  unfold subMono wrap64 maxDuration minDuration
  norm_num at ht hu ⊢
  split_ifs <;> omega

theorem Since_nonneg (start t : Time) (hs : isInt64 start.mono) (ht : isInt64 t.mono)
    (h : start.mono ≤ t.mono) : (0 : Int) ≤ Since start t := by
  unfold Since
  rw [subMono_eq _ _ ht hs h]
  split_ifs <;> omega

theorem Since_mono (start t1 t2 : Time) (hs : isInt64 start.mono) (h1 : isInt64 t1.mono)
    (h2 : isInt64 t2.mono) (h01 : start.mono ≤ t1.mono) (h12 : t1.mono ≤ t2.mono) :
    (Since start t1 : Int) ≤ Since start t2 := by
  unfold Since
  rw [subMono_eq _ _ h1 hs h01, subMono_eq _ _ h2 hs (le_trans h01 h12)]
  split_ifs <;> omega

theorem Seconds_nonneg (d : Duration) (h : (0 : Int) ≤ d) : 0 ≤ Seconds d := by
  unfold Seconds
  have h1 : (0 : Int) ≤ Int.tdiv d Second := Int.tdiv_nonneg h (by decide)
  have h2 : (0 : Int) ≤ Int.tmod d Second := Int.tmod_nonneg _ h
  have h3 : (0 : ℚ) ≤ ((Int.tdiv d Second : Int) : ℚ) := by exact_mod_cast h1
  have h4 : (0 : ℚ) ≤ ((Int.tmod d Second : Int) : ℚ) := by exact_mod_cast h2
  positivity

/-! ## The claims about the handlers and the configuration -/

/-- C6: two health calls at instants `t1 ≤ t2`, both not earlier than the
start instant, report uptimes `Since start t1 ≤ Since start t2` (each printed
by `Duration.String`), and the status of every health response is the literal
"healthy". -/
theorem C6_health_monotone (fmt : Duration → String) (start t1 t2 now1 now2 : Time)
    (hs : isInt64 start.mono) (h1 : isInt64 t1.mono) (h2 : isInt64 t2.mono)
    (h01 : start.mono ≤ t1.mono) (h12 : t1.mono ≤ t2.mono) :
    (healthResponse fmt start t1 now1).Uptime = fmt (Since start t1) ∧
    (healthResponse fmt start t2 now2).Uptime = fmt (Since start t2) ∧
    (Since start t1 : Int) ≤ Since start t2 ∧
    (0 : Int) ≤ Since start t1 ∧
    (∀ (f : Duration → String) (s t now : Time), (healthResponse f s t now).Status = "healthy") :=
  ⟨rfl, rfl, Since_mono start t1 t2 hs h1 h2 h01 h12, Since_nonneg start t1 hs h1 h01,
    fun _ _ _ _ => rfl⟩

/-- C6 at a start instant of 5 s, a first call at 7 s and a second at 12 s. -/
theorem C6_health_monotone_witness :
    (Since ⟨0, 5000000000⟩ ⟨0, 7000000000⟩ : Int) ≤ Since ⟨0, 5000000000⟩ ⟨0, 12000000000⟩ :=
  (C6_health_monotone (fun _ => "") ⟨0, 5000000000⟩ ⟨0, 7000000000⟩ ⟨0, 12000000000⟩
    ⟨0, 7000000000⟩ ⟨0, 12000000000⟩ (by decide) (by decide) (by decide)
    (by decide) (by decide)).2.2.1

/-- C7: the record built by rootHandler carries the value of APP_VERSION
verbatim in its version field, the empty string when the variable is unset,
and the same fixed message in every response; that record is what the
handler encodes. -/
theorem C7_version_passthrough (env : Environ) (host : String × Option Error)
    (goVersion : String) (now : Time) :
    (rootResponse env host goVersion now).Version =
      (match env.lookup "APP_VERSION" with
        | some v => v
        | none => "") ∧
    (∀ v : String,
      (rootResponse (("APP_VERSION", v) :: env) host goVersion now).Version = v) ∧
    (rootResponse (("APP_VERSION", "1.2.3") :: env) host goVersion now).Version = "1.2.3" ∧
    (rootResponse [] host goVersion now).Version = "" ∧
    (rootResponse env host goVersion now).Message = "Hello from Go Multi-Stage Docker!" ∧
    (∀ enc : Encoder, (rootHandler enc .fresh env host goVersion now).body =
      (enc (.greeting (rootResponse env host goVersion now))).written) := by
  refine ⟨?_, ?_, ?_, ?_, rfl, ?_⟩
  · simp only [rootResponse, Getenv]
    cases env.lookup "APP_VERSION" <;> rfl
  · intro v
    simp [rootResponse, Getenv, List.lookup]
  · simp [rootResponse, Getenv, List.lookup]
  · simp [rootResponse, Getenv, List.lookup]
  · intro enc
    simp [rootHandler, Encode, ResponseWriter.setHeader, ResponseWriter.fresh]

/-- C8: for every runtime state with well-typed memory statistics, a CPU
count of at least one and a clock not earlier than the start instant, the
metrics map has exactly the keys uptime_seconds, goroutines, memory and
cpu_count, with `uptime_seconds ≥ 0`, `cpu_count ≥ 1`, and a memory object of
exactly the four keys alloc, total_alloc, sys and num_gc whose values are the
runtime statistics. -/
theorem C8_metrics_shape (start t : Time) (m : MemStats) (numGoroutine numCPU : Int)
    (hm : m.wellTyped) (hcpu : 1 ≤ numCPU) (hs : isInt64 start.mono) (ht : isInt64 t.mono)
    (h : start.mono ≤ t.mono) :
    (metricsMap start t m numGoroutine numCPU).map Prod.fst =
      ["uptime_seconds", "goroutines", "memory", "cpu_count"] ∧
    (∃ q : ℚ, (metricsMap start t m numGoroutine numCPU).lookup "uptime_seconds" =
      some (.float q) ∧ 0 ≤ q) ∧
    (metricsMap start t m numGoroutine numCPU).lookup "goroutines" =
      some (.int numGoroutine) ∧
    (∃ n : Int, (metricsMap start t m numGoroutine numCPU).lookup "cpu_count" =
      some (.int n) ∧ 1 ≤ n) ∧
    (metricsMap start t m numGoroutine numCPU).lookup "memory" =
      some (.uintMap [("alloc", m.Alloc), ("total_alloc", m.TotalAlloc), ("sys", m.Sys),
        ("num_gc", m.NumGC)]) := by
  have hgc : toUint64 m.NumGC = m.NumGC := by
    unfold toUint64
    have := hm.2.2.2
    omega
  refine ⟨rfl, ⟨Seconds (Since start t), ?_, Seconds_nonneg _ (Since_nonneg start t hs ht h)⟩,
    ?_, ⟨numCPU, ?_, hcpu⟩, ?_⟩
  · simp [metricsMap, List.lookup]
  · simp [metricsMap, List.lookup]
  · simp [metricsMap, List.lookup]
  · simp [metricsMap, List.lookup, hgc]

/-- C8 at a concrete runtime state. -/
theorem C8_metrics_shape_witness :
    (metricsMap ⟨0, 0⟩ ⟨0, 1500000000⟩ ⟨1024, 4096, 8192, 3⟩ 5 4).lookup "memory" =
      some (.uintMap [("alloc", 1024), ("total_alloc", 4096), ("sys", 8192), ("num_gc", 3)]) :=
  (C8_metrics_shape ⟨0, 0⟩ ⟨0, 1500000000⟩ ⟨1024, 4096, 8192, 3⟩ 5 4
    (by decide) (by decide) (by decide) (by decide) (by decide)).2.2.2.2

/-- C9: each of the three handlers, for every request and every behaviour of
the encoder, answers with status 200 and Content-Type application/json, always
performs the body write (the body is whatever the Encode call wrote), and
discards the encode error: the response is the one obtained when Encode
returns nil.  In the running process a request adds no log line, leaves the
exit status and both threads where they are, and every response served in any
run has status 200 and the JSON content type. -/
theorem C9_handlers_always_ok (enc : Encoder) (env : Environ) (host : String × Option Error)
    (goVersion : String) (fmt : Duration → String) (start t now : Time) (m : MemStats)
    (numGoroutine numCPU : Int) :
    (rootHandler enc .fresh env host goVersion now).finish =
      ⟨200, [("Content-Type", "application/json")],
        (enc (.greeting (rootResponse env host goVersion now))).written⟩ ∧
    (healthHandler enc .fresh fmt start t now).finish =
      ⟨200, [("Content-Type", "application/json")],
        (enc (.health (healthResponse fmt start t now))).written⟩ ∧
    (metricsHandler enc .fresh start t m numGoroutine numCPU).finish =
      ⟨200, [("Content-Type", "application/json")],
        (enc (.metrics (metricsMap start t m numGoroutine numCPU))).written⟩ ∧
    rootHandler enc .fresh env host goVersion now =
      rootHandler (fun v => ⟨(enc v).written, none⟩) .fresh env host goVersion now ∧
    healthHandler enc .fresh fmt start t now =
      healthHandler (fun v => ⟨(enc v).written, none⟩) .fresh fmt start t now ∧
    metricsHandler enc .fresh start t m numGoroutine numCPU =
      metricsHandler (fun v => ⟨(enc v).written, none⟩) .fresh start t m numGoroutine numCPU ∧
    (∀ (s s' : State) (c : Call), step fmt s (.request c) = some s' →
      s'.exited = s.exited ∧ s'.mpc = s.mpc ∧ s'.gpc = s.gpc ∧
        logLines s'.trace = logLines s.trace) ∧
    (∀ (sched : List Action) (s : State), run fmt (boot env start) sched = some s →
      ∀ v r, Event.served v r ∈ s.trace →
        r.status = 200 ∧ r.header = [("Content-Type", "application/json")]) := by
  refine ⟨?_, ?_, ?_, ?_, ?_, ?_, ?_, ?_⟩
  · simp [rootHandler, Encode, ResponseWriter.setHeader, ResponseWriter.fresh,
      ResponseWriter.finish]
  · simp [healthHandler, Encode, ResponseWriter.setHeader, ResponseWriter.fresh,
      ResponseWriter.finish]
  · simp [metricsHandler, Encode, ResponseWriter.setHeader, ResponseWriter.fresh,
      ResponseWriter.finish]
  · simp [rootHandler, Encode]
  · simp [healthHandler, Encode]
  · simp [metricsHandler, Encode]
  · intro s s' c h
    obtain ⟨env0, st, mpc, gpc, ch, srv, ex, tr⟩ := s
    unfold step at h
    split at h
    · simp at h
    · cases gpc <;> simp [requestStep, State.emit] at h
      split at h <;> simp at h <;> subst h <;>
        simp [logLines_append, logLines_cons, logLines_nil, logLine]
  · intro sched s h
    intro v r hv
    exact run_served fmt sched _ _ (by simp [ServedInv, boot]) h _ hv

/-- C9 on a greeting request whose encoding fails after nothing was written. -/
theorem C9_handlers_always_ok_witness :
    (rootHandler (fun _ => ⟨"", some (.other "write: broken pipe")⟩) .fresh
        [("APP_VERSION", "1.2.3")] ("web-1", none) "go1.21.0" ⟨0, 10⟩).finish =
      ⟨200, [("Content-Type", "application/json")], ""⟩ :=
  (C9_handlers_always_ok (fun _ => ⟨"", some (.other "write: broken pipe")⟩)
    [("APP_VERSION", "1.2.3")] ("web-1", none) "go1.21.0" noFmt ⟨0, 0⟩ ⟨0, 10⟩ ⟨0, 10⟩
    ⟨0, 0, 0, 0⟩ 2 1).1

/-! ## The claims about the process lifecycle -/

theorem lifeP_initial (pc : MainPc) (l : List Event) (h : LifeP pc l) :
    ∃ sig err rest, l ++ rest = fullLifecycle sig err := by
  cases pc <;> simp only [LifeP] at h
  · exact ⟨.SIGINT, none, fullLifecycle .SIGINT none, by simp [h]⟩
  · exact ⟨.SIGINT, none, fullLifecycle .SIGINT none, by simp [h]⟩
  · exact ⟨.SIGINT, none, fullLifecycle .SIGINT none, by simp [h]⟩
  · obtain ⟨sig, h⟩ := h
    exact ⟨sig, none, [.serverClose none, .mainReturn], by simp [h, fullLifecycle]⟩
  · obtain ⟨sig, h⟩ := h
    exact ⟨sig, none, [.serverClose none, .mainReturn], by simp [h, fullLifecycle]⟩
  · obtain ⟨sig, h⟩ := h
    exact ⟨sig, _, [.mainReturn], by rw [h]; rfl⟩
  · obtain ⟨sig, err, h⟩ := h
    exact ⟨sig, err, [.mainReturn], by simp [h, fullLifecycle]⟩
  · obtain ⟨sig, err, h⟩ := h
    exact ⟨sig, err, [.mainReturn], by simp [h, fullLifecycle]⟩
  · obtain ⟨sig, err, h⟩ := h
    exact ⟨sig, err, [], by simp [h, fullLifecycle]⟩

theorem mem_of_mem_lifecycle (e : Event) (tr : List Event) (h : e ∈ lifecycle tr) : e ∈ tr := by
  unfold lifecycle at h
  exact (List.mem_filter.mp h).1

theorem mem_lifecycle_close (err : Option Error) (tr : List Event)
    (h : Event.serverClose err ∈ tr) : Event.serverClose err ∈ lifecycle tr := by
  unfold lifecycle
  exact List.mem_filter.mpr ⟨h, rfl⟩

theorem close_needs_receipt (tr rest : List Event) (sig : Signal) (err : Option Error)
    (h : lifecycle tr ++ rest = fullLifecycle sig err) (pre post : List Event)
    (e : Option Error) (hsplit : tr = pre ++ Event.serverClose e :: post) :
    Event.sigReceived sig ∈ pre ∧ (∀ e', Event.serverClose e' ∉ pre) ∧
      (∀ e', Event.serverClose e' ∉ post) := by
  subst hsplit
  simp only [lifecycle_append, lifecycle_cons, isLifecycle, if_true, fullLifecycle,
    List.append_assoc, List.cons_append] at h
  have hpre : lifecycle pre = [.sigReceived sig] ∧
      (lifecycle post = [] ∨ lifecycle post = [.mainReturn]) := by
    rcases hp : lifecycle pre with _ | ⟨x, _ | ⟨y, l⟩⟩
    · rw [hp] at h
      simp at h
    · rw [hp] at h
      simp at h
      obtain ⟨hx, -, hpost⟩ := h
      refine ⟨by rw [hx], ?_⟩
      rcases hq : lifecycle post with _ | ⟨z, l⟩
      · exact Or.inl rfl
      · rw [hq] at hpost
        simp at hpost
        exact Or.inr (by rw [hpost.1, hpost.2.1])
    · rw [hp] at h
      simp at h
      rcases l with _ | ⟨z, l⟩
      · simp at h
      · simp at h
  refine ⟨?_, ?_, ?_⟩
  · exact mem_of_mem_lifecycle _ _ (by rw [hpre.1]; simp)
  · intro e' he
    have := mem_lifecycle_close e' pre he
    rw [hpre.1] at this
    simp at this
  · intro e' he
    have := mem_lifecycle_close e' post he
    rcases hpre.2 with hq | hq <;> rw [hq] at this <;> simp at this

/-- C1 (amended): in every execution of main the lifecycle events so far are
an initial part of "signal received, Close, main returns", so Close is called
at most once and never before a signal has been received, and an execution
that ends with status 0 has exactly that sequence.  Once a signal has been
delivered main is never blocked: its next statement can always be executed,
each of its moves brings it one statement nearer its return whatever the
other thread does, and every run in which it executes its remaining
statements has the complete sequence and status 0.  The only other endings are the fatal exit of the
accept-loop goroutine (status 1) and a signal that arrives before
signal.Notify has run.  Exchanging SIGINT and SIGTERM in the schedule
changes nothing but the signal recorded. -/
theorem C1_lifecycle_order (fmt : Duration → String) (env : Environ) (start : Time)
    (sched : List Action) (s : State) (h : run fmt (boot env start) sched = some s) :
    (∃ sig err rest, lifecycle s.trace ++ rest = fullLifecycle sig err) ∧
    (∀ pre e post, s.trace = pre ++ Event.serverClose e :: post →
      (∃ sig, Event.sigReceived sig ∈ pre) ∧ (∀ e', Event.serverClose e' ∉ pre) ∧
        (∀ e', Event.serverClose e' ∉ post)) ∧
    (s.exited = some 0 → s.mpc = .returned ∧ ∃ sig err,
      Event.delivered sig ∈ s.trace ∧ lifecycle s.trace = fullLifecycle sig err) ∧
    (s.exited = none → (∃ sig, Event.delivered sig ∈ s.trace) → ∀ err,
      (∃ s', step fmt s .main = some s' ∨ step fmt s (.close err) = some s') ∧
      (∃ s', run fmt s (mainRest s.mpc err) = some s' ∧ s'.exited = some 0 ∧
        ∃ sig e, lifecycle s'.trace = fullLifecycle sig e)) ∧
    (∀ post s2, run fmt s post = some s2 →
      mainLeft s2.mpc + mainMoves post = mainLeft s.mpc ∧
        (s2.mpc = .returned ↔ s2.exited = some 0) ∧
        (mainMoves post = mainLeft s.mpc → s2.exited = some 0 ∧
          ∃ sig e, lifecycle s2.trace = fullLifecycle sig e)) ∧
    (∀ c, s.exited = some c → c ≠ 0 →
      (c = 1 ∧ ∃ err, isFatal err = true ∧
        Event.log ("Server failed to start: " ++ errText err) ∈ s.trace) ∨
      (∃ sig, c = 128 + sig.number ∧ s.mpc = .start ∧ Event.killed sig ∈ s.trace)) ∧
    (run fmt (boot env start) (sched.map Action.swap) = some s.swap ∧
      s.swap.mpc = s.mpc ∧ logLines s.swap.trace = logLines s.trace ∧
      (s.mpc ≠ .start → s.swap.exited = s.exited)) := by
  have hinv := run_inv fmt env sched _ _ (boot_inv env start) h
  obtain ⟨-, hlife, hexit, hsig, -, hchan⟩ := hinv
  have hinit := lifeP_initial _ _ hlife
  have hfull : ∀ s' : State, Inv env s' → s'.exited = some 0 →
      s'.mpc = .returned ∧ ∃ sig err,
        Event.delivered sig ∈ s'.trace ∧ lifecycle s'.trace = fullLifecycle sig err := by
    intro s' hi h0
    obtain ⟨-, hl, he, hsg, -, -⟩ := hi
    have hret : s'.mpc = .returned := he.1.mpr h0
    refine ⟨hret, ?_⟩
    unfold LifeInv at hl
    rw [hret] at hl
    obtain ⟨sig, err, hl⟩ := hl
    exact ⟨sig, err, hsg.2 sig (mem_of_mem_lifecycle _ _ (by rw [hl]; simp)), hl⟩
  refine ⟨hinit, ?_, ?_, ?_, ?_, ?_, ?_⟩
  · intro pre e post hsplit
    obtain ⟨sig, err, rest, hl⟩ := hinit
    have := close_needs_receipt s.trace rest sig err hl pre post e hsplit
    exact ⟨⟨sig, this.1⟩, this.2⟩
  · exact hfull s (run_inv fmt env sched _ _ (boot_inv env start) h)
  · intro hlive hdel err
    obtain ⟨sig, hdel⟩ := hdel
    have hret : s.mpc ≠ .returned := by
      intro hr
      have := hexit.1.mp hr
      rw [hlive] at this
      exact absurd this (by simp)
    have hch : s.mpc.beforeSignal = true → s.sigChan.isSome = true :=
      fun hb => hchan hb sig hdel
    refine ⟨main_enabled fmt s err hlive hret (fun hw => hch (by rw [hw]; rfl)), ?_⟩
    obtain ⟨s', hrun, h0, -⟩ := run_mainRest fmt s err hlive hret hch
    have hrun' : run fmt (boot env start) (sched ++ mainRest s.mpc err) = some s' := by
      rw [run_append, h]
      simpa using hrun
    have hinv' := run_inv fmt env _ _ _ (boot_inv env start) hrun'
    obtain ⟨-, sig', e', -, hl'⟩ := hfull s' hinv' h0
    exact ⟨s', hrun, h0, sig', e', hl'⟩
  · intro post s2 hpost
    have hcount := run_mainLeft fmt post s s2 hpost
    have hrun' : run fmt (boot env start) (sched ++ post) = some s2 := by
      rw [run_append, h]
      simpa using hpost
    have hinv2 := run_inv fmt env _ _ _ (boot_inv env start) hrun'
    refine ⟨hcount, hinv2.2.2.1.1, ?_⟩
    intro hall
    have hr : s2.mpc = .returned := mainLeft_zero _ (by omega)
    have h0 := hinv2.2.2.1.1.mp hr
    obtain ⟨-, sig', e', -, hl'⟩ := hfull s2 hinv2 h0
    exact ⟨h0, sig', e', hl'⟩
  · intro c hc hne
    rcases hexit.2 c hc with h0 | ⟨h1, err, hf, -, hlog⟩ | hk
    · exact absurd h0 hne
    · exact Or.inl ⟨h1, err, hf, hlog⟩
    · exact Or.inr hk
  · have hs := run_swap fmt sched (boot env start)
    rw [h] at hs
    refine ⟨?_, rfl, logLines_swap s.trace, ?_⟩
    · simpa [boot, State.swap] using hs
    · intro hstart
      cases hx : s.exited with
      | none => simp [State.swap, hx]
      | some c =>
        rcases hexit.2 c hx with h0 | ⟨h1, -⟩ | ⟨sig, -, hst, -⟩
        · subst h0
          simp [State.swap, hx, swapStatus]
        · subst h1
          simp [State.swap, hx, swapStatus]
        · exact absurd hst hstart

/-- C1 at an instance that is up and has just been sent SIGINT: main can
move, and its remaining statements complete the lifecycle with status 0. -/
theorem C1_lifecycle_order_witness :
    ∃ s, run noFmt (boot [] ⟨0, 0⟩) (startUp ++ [Action.deliver .SIGINT]) = some s ∧
      s.exited = none ∧ Event.delivered .SIGINT ∈ s.trace ∧
      ∃ s', run noFmt s (mainRest s.mpc none) = some s' ∧ s'.exited = some 0 ∧
        ∃ sig e, lifecycle s'.trace = fullLifecycle sig e :=
  ⟨_, rfl, rfl, by decide,
    ((C1_lifecycle_order noFmt [] ⟨0, 0⟩ (startUp ++ [Action.deliver .SIGINT]) _ rfl).2.2.2.1
      rfl ⟨.SIGINT, by decide⟩ none).2⟩

/-- C1 as stated fails: with the port taken, a SIGTERM is delivered and
received by main, yet the process ends with status 1 through the goroutine's
fatal branch; the server is never closed and main never returns. -/
theorem C1_counterexample :
    ∃ s, run noFmt (boot [] ⟨0, 0⟩) fatalRace = some s ∧
      Event.delivered .SIGTERM ∈ s.trace ∧
      s.exited = some 1 ∧
      lifecycle s.trace = [.sigReceived .SIGTERM] ∧
      Event.mainReturn ∉ s.trace :=
  ⟨_, rfl, by decide, rfl, rfl, by decide⟩

/-- C2: in any live state in which `ListenAndServe` has returned `err` to
the goroutine, the goroutine's next step is the fatal one (it logs the error
and ends the process with status 1) exactly when `err` is non-nil and is not
`http.ErrServerClosed`, and otherwise it ends quietly without log line or
exit; a failed bind makes `ListenAndServe` return its error, so it is
fatal. -/
theorem C2_listen_error_fatal (fmt : Duration → String) (s : State) (hlive : s.exited = none) :
    (∀ err, s.gpc = .returned err → err ≠ none → err ≠ some .ErrServerClosed →
      step fmt s .goroutine =
        some { s with
          trace := s.trace ++ [.log ("Server failed to start: " ++ errText err), .exit 1],
          exited := some 1 }) ∧
    (∀ err, s.gpc = .returned err → (err = none ∨ err = some .ErrServerClosed) →
      step fmt s .goroutine = some { s with gpc := .done }) ∧
    (∀ msg, s.gpc = .calling →
      ∃ s', run fmt s [.listen (some (.other msg)), .goroutine] = some s' ∧
        s'.exited = some 1 ∧
        logLines s'.trace = logLines s.trace ++ ["Server failed to start: " ++ msg]) ∧
    (∀ msg, s.gpc = .serving →
      ∃ s', run fmt s [.serveReturn (some (.other msg)), .goroutine] = some s' ∧
        s'.exited = some 1 ∧
        logLines s'.trace = logLines s.trace ++ ["Server failed to start: " ++ msg]) := by
  obtain ⟨env0, st, mpc, gpc, ch, srv, ex, tr⟩ := s
  simp only at hlive
  subst hlive
  refine ⟨?_, ?_, ?_, ?_⟩
  · intro err hpc h1 h2
    simp only at hpc
    subst hpc
    have hf : isFatal err = true := by
      simp [isFatal, h1, h2]
    simp [step, goroutineStep, hf, State.emit]
  · intro err hpc h1
    simp only at hpc
    subst hpc
    have hf : isFatal err = false := by
      rcases h1 with h1 | h1 <;> simp [isFatal, h1]
    simp [step, goroutineStep, hf]
  · intro msg hpc
    simp only at hpc
    subst hpc
    simp [run, step, listenStep, goroutineStep, isFatal, State.emit, errText, Error.text,
      logLines_append, logLines_cons, logLines_nil, logLine]
  · intro msg hpc
    simp only at hpc
    subst hpc
    simp [run, step, serveReturnStep, goroutineStep, isFatal, State.emit, errText, Error.text,
      logLines_append, logLines_cons, logLines_nil, logLine]

/-- C2 in the state reached when the bind has failed because the port is taken. -/
theorem C2_listen_error_fatal_witness :
    ∃ s, run noFmt (boot [] ⟨0, 0⟩)
        [.main, .main, .goroutine, .listen (some (.other "address already in use"))] = some s ∧
      s.exited = none ∧
      step noFmt s .goroutine =
        some { s with
          trace := s.trace ++
            [.log ("Server failed to start: " ++ errText (some (.other "address already in use"))),
             .exit 1],
          exited := some 1 } :=
  ⟨_, rfl, rfl,
    (C2_listen_error_fatal noFmt _ rfl).1 (some (.other "address already in use")) rfl
      (by decide) (by decide)⟩

/-- C3 (amended): a close error is non-fatal.  From the call of `Close`, for
every result `err` and in every interleaving with the other thread, what main
emits is the record of the call, then the report of `err` (one line "Server
close error: ..." for an error, nothing for nil), then "Server stopped", then
its return with status 0, as far as main has got; main is never blocked, and
every run in which it executes its three remaining statements ends with
status 0 and all of that output.  The error changes nothing but the report line.  The only run
that ends otherwise is one ended with status 1 by the fatal branch of the
accept-loop goroutine. -/
theorem C3_close_error_nonfatal (fmt : Duration → String) (env : Environ) (start : Time)
    (pre post : List Action) (s s2 : State) (err : Option Error)
    (hpre : run fmt (boot env start) pre = some s)
    (hlive : s.exited = none) (hpc : s.mpc = .closing)
    (hpost : run fmt s (.close err :: post) = some s2) :
    mainOut fmt s (.close err :: post) = .serverClose err :: afterClose err s2.mpc ∧
    (∃ tail, s2.trace = s.trace ++ tail ∧
      List.Sublist (mainOut fmt s (.close err :: post)) tail) ∧
    afterClose err s2.mpc =
      (if s2.mpc.reported then closeReport err else []) ++ afterClose none s2.mpc ∧
    logLines (closeReport err) =
      (match err with
        | none => []
        | some e => ["Server close error: " ++ e.text]) ∧
    mainLeft s2.mpc + mainMoves post = 3 ∧
    (mainMoves post = 3 → s2.exited = some 0 ∧
      mainOut fmt s (.close err :: post) =
        .serverClose err :: (closeReport err ++
          [.log "Server stopped", .mainReturn, .exit 0])) ∧
    (s2.exited = none →
      (∃ s3, step fmt s2 .main = some s3) ∧
      (∃ s3, run fmt s2 (mainRest s2.mpc err) = some s3 ∧ s3.exited = some 0 ∧
        mainOut fmt s (.close err :: (post ++ mainRest s2.mpc err)) =
          .serverClose err :: (closeReport err ++
            [.log "Server stopped", .mainReturn, .exit 0]))) ∧
    (∀ c, s2.exited = some c →
      (c = 0 ∧ s2.mpc = .returned) ∨
      (c = 1 ∧ ∃ e, isFatal e = true ∧
        Event.log ("Server failed to start: " ++ errText e) ∈ s2.trace)) ∧
    run fmt s [.close err, .main, .main, .main] =
      some { s with
        mpc := .returned,
        exited := some 0,
        trace := s.trace ++ [.serverClose err] ++ closeReport err ++
          [.log "Server stopped", .mainReturn, .exit 0] } := by
  obtain ⟨s1, hstep, hpc1, hlive1, hemit⟩ := close_step fmt s err hlive hpc
  have hrest : run fmt s1 post = some s2 := by
    simpa [run, hstep] using hpost
  have hpast : s1.mpc.pastClose err := by
    rw [hpc1]
    rfl
  have hout : ∀ sched : List Action, mainOut fmt s (.close err :: sched) =
      .serverClose err :: mainOut fmt s1 sched := by
    intro sched
    simp [mainOut, hstep, Action.isMain, hemit]
  have hac := run_afterClose fmt err post s1 s2 hpast hrest
  have hfull : run fmt (boot env start) (pre ++ .close err :: post) = some s2 := by
    rw [run_append, hpre]
    simpa using hpost
  have hinv := run_inv fmt env _ _ _ (boot_inv env start) hfull
  obtain ⟨-, -, hexit, -, -, -⟩ := hinv
  have hnotstart : s2.mpc ≠ .start := by
    intro hs
    have := hac.1
    rw [hs] at this
    exact this
  have hmain : mainOut fmt s (.close err :: post) =
      .serverClose err :: afterClose err s2.mpc := by
    rw [hout, ← hac.2, hpc1]
    simp [afterClose]
  have hcount : mainLeft s2.mpc + mainMoves post = 3 := by
    have := run_mainLeft fmt post s1 s2 hrest
    rw [hpc1] at this
    simpa [mainLeft] using this
  refine ⟨hmain, run_grows fmt _ s s2 hpost, ?_, ?_, hcount, ?_, ?_, ?_, ?_⟩
  · cases hm : s2.mpc <;> simp [afterClose, MainPc.reported, closeReport]
  · cases err <;> simp [closeReport, logLines_cons, logLines_nil, logLine]
  · intro hall
    have hr : s2.mpc = .returned := mainLeft_zero _ (by omega)
    refine ⟨hexit.1.mp hr, ?_⟩
    rw [hmain, hr]
    rfl
  · intro hlive2
    have hret : s2.mpc ≠ .returned := by
      intro hr
      have := hexit.1.mp hr
      rw [hlive2] at this
      exact absurd this (by simp)
    have hbs : s2.mpc.beforeSignal = true → s2.sigChan.isSome = true := by
      intro hb
      have := hac.1
      cases hm : s2.mpc <;> rw [hm] at hb this <;>
        simp [MainPc.beforeSignal, MainPc.pastClose] at hb this
    constructor
    · obtain ⟨s3, h3 | h3⟩ := main_enabled fmt s2 err hlive2 hret
        (fun hw => hbs (by rw [hw]; rfl))
      · exact ⟨s3, h3⟩
      · exfalso
        have := hac.1
        obtain ⟨env0, st, mpc, gpc, ch, srv, ex, tr⟩ := s2
        cases mpc <;> simp [step, closeStep, MainPc.pastClose] at h3 this
        all_goals simp_all
    · obtain ⟨s3, hrun, h0, hr3⟩ := run_mainRest fmt s2 err hlive2 hret hbs
      refine ⟨s3, hrun, h0, ?_⟩
      have hrun1 : run fmt s1 (post ++ mainRest s2.mpc err) = some s3 := by
        rw [run_append, hrest]
        simpa using hrun
      have := run_afterClose fmt err _ s1 s3 hpast hrun1
      rw [hout, ← List.nil_append (mainOut fmt s1 (post ++ mainRest s2.mpc err))]
      have h2 := this.2
      rw [hpc1, hr3] at h2
      simpa [afterClose] using h2
  · intro c hc
    rcases hexit.2 c hc with h0 | ⟨h1, e, hf, -, hlog⟩ | ⟨sig, -, hst, -⟩
    · subst h0
      exact Or.inl ⟨rfl, hexit.1.mpr hc⟩
    · exact Or.inr ⟨h1, e, hf, hlog⟩
    · exact absurd hst hnotstart
  · obtain ⟨env0, st, mpc, gpc, ch, srv, ex, tr⟩ := s
    simp only at hlive hpc
    subst hlive hpc
    cases err with
    | none =>
      simp [run, step, closeStep, mainStep, State.emit, closeReport]
    | some e =>
      simp [run, step, closeStep, mainStep, State.emit, closeReport, errText]

/-- C3 in a serving instance that has received SIGINT, with `Close` failing
and `ListenAndServe` returning between the statements of main. -/
theorem C3_close_error_nonfatal_witness :
    ∃ s s2, run noFmt (boot [] ⟨0, 0⟩) upToClose = some s ∧
      run noFmt s
        (.close (some (.other "close tcp: use of closed network connection")) ::
          afterFailedClose) = some s2 ∧
      s2.exited = some 0 ∧
      mainOut noFmt s
        (.close (some (.other "close tcp: use of closed network connection")) ::
          afterFailedClose) =
        .serverClose (some (.other "close tcp: use of closed network connection")) ::
          afterClose (some (.other "close tcp: use of closed network connection")) s2.mpc :=
  ⟨_, _, rfl, rfl, rfl,
    (C3_close_error_nonfatal noFmt [] ⟨0, 0⟩ upToClose afterFailedClose _ _
      (some (.other "close tcp: use of closed network connection")) rfl rfl rfl rfl).1⟩

/-- C3 as stated fails: main is at its `Close` call in a live process, `Close`
returns nil, and the goroutine's fatal branch then ends the process with
status 1; "Server stopped" is never logged and main never returns. -/
theorem C3_counterexample :
    ∃ s s2, run noFmt (boot [] ⟨0, 0⟩) raceToClose = some s ∧
      s.exited = none ∧ s.mpc = .closing ∧
      run noFmt s [.close none, .goroutine] = some s2 ∧
      s2.exited = some 1 ∧
      "Server stopped" ∉ logLines s2.trace ∧
      Event.mainReturn ∉ s2.trace :=
  ⟨_, _, rfl, rfl, rfl, rfl, rfl, by decide, by decide⟩

/-- C4 (amended): a running instance that has bound successfully has logged
the server-starting line and nothing else.  From then on, with `Close`
returning no error and `ListenAndServe` returning nothing but nil or
`http.ErrServerClosed`, in every interleaving: the log is that line followed
by the lines main has got to; the process never ends with a failure status;
main is never blocked once a signal is in the channel, and every run in which
it executes its six remaining statements ends with success status and the
three lines; and an interrupt or termination request sent to the
live instance brings it, by main's remaining statements, to exit with success
status.  The whole run then has exactly three log lines: server starting,
shutdown signal received, server stopped. -/
theorem C4_shutdown_log (fmt : Duration → String) (env : Environ) (start : Time)
    (pre post : List Action) (s1 s2 : State)
    (hpre : run fmt (boot env start) pre = some s1)
    (hup : s1.gpc = .serving) (hwait : s1.mpc = .waiting)
    (hpost : run fmt s1 post = some s2)
    (hclean : post.all Action.benign = true) :
    logLines s1.trace = ["Server starting on port " ++ port env] ∧
    logLines s2.trace = logLines s1.trace ++ mainLog s2.mpc ∧
    (∀ c, s2.exited = some c → c = 0 ∧ s2.mpc = .returned ∧
      logLines s2.trace =
        ["Server starting on port " ++ port env,
         "Shutdown signal received, gracefully stopping...",
         "Server stopped"]) ∧
    mainLeft s2.mpc + mainMoves post = 6 ∧
    (mainMoves post = 6 → s2.exited = some 0 ∧
      logLines s2.trace =
        ["Server starting on port " ++ port env,
         "Shutdown signal received, gracefully stopping...",
         "Server stopped"]) ∧
    (s2.exited = none → ∀ sig, ∃ s3,
      run fmt s2 (.deliver sig :: mainRest s2.mpc none) = some s3 ∧
      s3.exited = some 0 ∧
      logLines s3.trace =
        ["Server starting on port " ++ port env,
         "Shutdown signal received, gracefully stopping...",
         "Server stopped"]) ∧
    (s2.exited = none → (s2.mpc = .waiting → s2.sigChan.isSome = true) →
      ∃ s3, step fmt s2 .main = some s3 ∨ step fmt s2 (.close none) = some s3) ∧
    run fmt (boot env start) (pre ++ post) = some s2 := by
  have hinv := run_inv fmt env pre _ _ (boot_inv env start) hpre
  obtain ⟨hcfg, -, hexit, -, hlog, -⟩ := hinv
  have hl1 : logLines s1.trace = ["Server starting on port " ++ port env] := by
    unfold StartLogInv at hlog
    rw [hup, hwait, hcfg.1] at hlog
    exact hlog
  have hs1 : ShutInv (logLines s1.trace) s1 := by
    refine ⟨by rw [hup]; rfl, by rw [hwait]; rfl, by rw [hwait]; simp [mainLog], ?_, ?_⟩
    · intro err he
      rw [hwait] at he
      exact absurd he (by simp)
    · intro c hc
      rcases hexit.2 c hc with h0 | ⟨-, err, -, hg, -⟩ | ⟨sig, -, hst, -⟩
      · subst h0
        have := hexit.1.mpr hc
        rw [hwait] at this
        exact absurd this (by simp)
      · rw [hup] at hg
        exact absurd hg (by simp)
      · rw [hwait] at hst
        exact absurd hst (by simp)
  have hs2 := run_shut fmt (logLines s1.trace) post s1 s2 hclean hs1 hpost
  have hfull : run fmt (boot env start) (pre ++ post) = some s2 := by
    rw [run_append, hpre]
    simpa using hpost
  have hinv2 := run_inv fmt env _ _ _ (boot_inv env start) hfull
  have hthree : ∀ s3 : State, ShutInv (logLines s1.trace) s3 → s3.mpc = .returned →
      logLines s3.trace =
        ["Server starting on port " ++ port env,
         "Shutdown signal received, gracefully stopping...",
         "Server stopped"] := by
    intro s3 hs3 hr
    have := hs3.2.2.1
    rw [hr, hl1] at this
    simpa [mainLog] using this
  have hret : s2.exited = none → s2.mpc ≠ .returned := by
    intro hlive hr
    have := hinv2.2.2.1.1.mp hr
    rw [hlive] at this
    exact absurd this (by simp)
  have hcount : mainLeft s2.mpc + mainMoves post = 6 := by
    have := run_mainLeft fmt post s1 s2 hpost
    rw [hwait] at this
    simpa [mainLeft] using this
  refine ⟨hl1, hs2.2.2.1, ?_, hcount, ?_, ?_, ?_, hfull⟩
  · intro c hc
    obtain ⟨h0, hr⟩ := hs2.2.2.2.2 c hc
    exact ⟨h0, hr, hthree s2 hs2 hr⟩
  · intro hall
    have hr : s2.mpc = .returned := mainLeft_zero _ (by omega)
    exact ⟨hinv2.2.2.1.1.mp hr, hthree s2 hs2 hr⟩
  · intro hlive sig
    have hstart : s2.mpc ≠ .start := by
      intro hs
      have := hs2.2.1
      rw [hs] at this
      simp [MainPc.configured] at this
    obtain ⟨sd, hd, hdl, hdm, hdc⟩ := deliver_enabled fmt s2 sig hlive hstart
    obtain ⟨s3, hrun, h0, hr3⟩ := run_mainRest fmt sd none hdl
      (by rw [hdm]; exact hret hlive) (fun _ => hdc)
    rw [hdm] at hrun
    have hrun2 : run fmt s2 (.deliver sig :: mainRest s2.mpc none) = some s3 := by
      simp only [run, hd, Option.bind_some]
      exact hrun
    have hben : (Action.deliver sig :: mainRest s2.mpc none).all Action.benign = true := by
      simp only [List.all_cons, mainRest_benign, Bool.and_true]
      rfl
    have hs3 := run_shut fmt (logLines s1.trace) _ s2 s3 hben hs2 hrun2
    exact ⟨s3, hrun2, h0, hthree s3 hs3 hr3⟩
  · intro hlive hw
    exact main_enabled fmt s2 none hlive (hret hlive) hw

/-- C4 at the default port: start-up, then a clean stop on SIGINT. -/
theorem C4_shutdown_log_witness :
    ∃ s1 s2, run noFmt (boot [] ⟨0, 0⟩) startUp = some s1 ∧
      run noFmt s1 cleanStop = some s2 ∧
      s2.exited = some 0 ∧
      logLines s2.trace =
        ["Server starting on port " ++ port [],
         "Shutdown signal received, gracefully stopping...",
         "Server stopped"] :=
  ⟨_, _, rfl, rfl, rfl,
    ((C4_shutdown_log noFmt [] ⟨0, 0⟩ startUp cleanStop _ _ rfl rfl rfl rfl
      (by decide)).2.2.1 0 rfl).2.2⟩

/-- C4 as stated fails: an instance that binds, then receives SIGINT, with
`Close` returning nil, ends with status 0 after three log lines, the first
being the server-starting line; its log is not the two shutdown lines. -/
theorem C4_counterexample :
    ∃ s1 s2, run noFmt (boot [] ⟨0, 0⟩) startUp = some s1 ∧
      s1.gpc = .serving ∧ s1.mpc = .waiting ∧
      run noFmt s1 cleanStop = some s2 ∧
      s2.exited = some 0 ∧
      Event.serverClose none ∈ s2.trace ∧
      logLines s2.trace =
        ["Server starting on port 8080",
         "Shutdown signal received, gracefully stopping...",
         "Server stopped"] ∧
      logLines s2.trace ≠
        ["Shutdown signal received, gracefully stopping...", "Server stopped"] :=
  ⟨_, _, rfl, rfl, rfl, rfl, rfl, by decide, rfl, by decide⟩

/-- C5: the listen address of the server is ":8080" when PORT is unset or
empty and ":" followed by the value of PORT otherwise; in every run PORT is
read once, in the set-up of main before the goroutine exists, never again
(requests read APP_VERSION only), and the server keeps the address computed
then. -/
theorem C5_port_selection (fmt : Duration → String) (env : Environ) (start : Time)
    (sched : List Action) (s : State) (h : run fmt (boot env start) sched = some s) :
    (newServer env).Addr =
      (match env.lookup "PORT" with
        | none => ":8080"
        | some p => if p = "" then ":8080" else ":" ++ p) ∧
    (s.mpc.configured = false →
      s.server = none ∧ (envReads s.trace).count "PORT" = 0 ∧ s.gpc = .idle) ∧
    (s.mpc.configured = true →
      s.server = some (newServer env) ∧ (envReads s.trace).count "PORT" = 1) := by
  have hinv := run_inv fmt env sched _ _ (boot_inv env start) h
  obtain ⟨⟨-, h1, h2⟩, -⟩ := hinv
  refine ⟨?_, h1, fun hc => ⟨(h2 hc).1, (h2 hc).2.1⟩⟩
  simp only [newServer, port, Getenv]
  cases env.lookup "PORT" with
  | none => simp
  | some p =>
    by_cases hp : p = ""
    · simp [hp]
    · simp [hp]

/-- C5 with PORT=9090, after start-up and two greeting requests. -/
theorem C5_port_selection_witness :
    ∃ s, run noFmt (boot [("PORT", "9090")] ⟨0, 0⟩)
        (startUp ++ [Action.request demoCall, Action.request demoCall]) = some s ∧
      (newServer [("PORT", "9090")]).Addr = ":9090" ∧
      envReads s.trace = ["PORT", "APP_VERSION", "APP_VERSION"] ∧
      (s.mpc.configured = true →
        s.server = some (newServer [("PORT", "9090")]) ∧
          (envReads s.trace).count "PORT" = 1) :=
  ⟨_, rfl, by decide, rfl,
    (C5_port_selection noFmt [("PORT", "9090")] ⟨0, 0⟩
      (startUp ++ [Action.request demoCall, Action.request demoCall]) _ rfl).2.2⟩

/-- C10: for every environment (hence every PORT and APP_VERSION) the server
built by main has read and write timeouts of exactly 10 seconds
(10 000 000 000 ns) each, and in every run that is the configuration of the
server once main has built it. -/
theorem C10_timeouts (fmt : Duration → String) (env : Environ) (start : Time)
    (sched : List Action) (s : State) (h : run fmt (boot env start) sched = some s) :
    (newServer env).ReadTimeout = 10 * Second ∧
    (newServer env).WriteTimeout = 10 * Second ∧
    (10 * Second : Int) = 10000000000 ∧
    (∀ srv, s.server = some srv →
      srv.ReadTimeout = 10000000000 ∧ srv.WriteTimeout = 10000000000) := by
  have hinv := run_inv fmt env sched _ _ (boot_inv env start) h
  obtain ⟨⟨-, h1, h2⟩, -⟩ := hinv
  refine ⟨rfl, rfl, by decide, ?_⟩
  intro srv hsrv
  cases hc : s.mpc.configured with
  | false =>
    rw [(h1 hc).1] at hsrv
    simp at hsrv
  | true =>
    rw [(h2 hc).1] at hsrv
    simp only [Option.some.injEq] at hsrv
    subst hsrv
    exact ⟨rfl, rfl⟩

/-- C10 with PORT=9090 and APP_VERSION=1.2.3, once the instance is up. -/
theorem C10_timeouts_witness :
    ∃ s, run noFmt (boot [("PORT", "9090"), ("APP_VERSION", "1.2.3")] ⟨0, 0⟩) startUp = some s ∧
      s.server = some ⟨":9090", 10000000000, 10000000000⟩ ∧
      (newServer [("PORT", "9090"), ("APP_VERSION", "1.2.3")]).ReadTimeout = 10 * Second :=
  ⟨_, rfl, by decide,
    (C10_timeouts noFmt [("PORT", "9090"), ("APP_VERSION", "1.2.3")] ⟨0, 0⟩ startUp _ rfl).1⟩

end GoApp
